import Mathlib

/-!
# k4geo: GridDRcalo_k4geo identifier helpers and two geometry builders

Shallow embedding of

* `detectorSegmentations/GridDRcalo_k4geo.h` (32-bit legacy view of a CellID, the 32-bit
  accessor overloads and the configuration setters/getters),
* `detector/other/SimpleCylinder_geo_o1_v02.cpp` (`createSimpleCylinder`), and
* `detector/calorimeter/ECalEndcap_Turbine_o1_v01_geo.cpp` (`buildWheel`).

Conventions.  A `CellID` is an unsigned 64-bit integer, represented by a `Nat` below
`2^64`; a C++ `int` is a 32-bit two's-complement integer, represented by an `Int` in
`[-2^31, 2^31)`.  A `double` of the cylinder builder is represented by a rational
number.  The exact model (`SimpleCylinder.createSimpleCylinder` and its parts) takes the
arithmetic without rounding, overflow or underflow; the namespace `SimpleCylinder.Double`
holds the same computations with every operation rounded to the nearest binary64 number
(`Binary64.roundDouble`).  The wheel builder is written over an ordered field; its
blade-angle check is computed on floating-point values with infinities and NaN
(`ECalEndcapTurbine.Fp`), exact on finite numbers, and its theorems on the blade angle
take the real numbers with the real tangent and arctangent.
-/

namespace K4geo

/-! ## GridDRcalo_k4geo: 32-bit legacy view -/

/-- Conversion of an unsigned value to `int`: keep the low 32 bits and read them as a
two's-complement number. -/
def toInt32 (n : Nat) : Int :=
  if n % 2 ^ 32 < 2 ^ 31 then ((n % 2 ^ 32 : Nat) : Int) else ((n % 2 ^ 32 : Nat) : Int) - 2 ^ 32

/-- Conversion of a signed integer to the unsigned 64-bit `CellID`: reduction modulo
`2^64` (sign extension for a negative `int`). -/
def toCellID (v : Int) : Nat :=
  (v % 2 ^ 64).toNat

/-- The values an `int` can hold. -/
def isInt32 (v : Int) : Prop :=
  -(2 ^ 31) ≤ v ∧ v < 2 ^ 31

instance (v : Int) : Decidable (isInt32 v) := by
  unfold isInt32; infer_instance

/-- Source: `int getFirst32bits(const CellID& aCellID) const { return (int)aCellID; }` -/
def getFirst32bits (aCellID : Nat) : Int :=
  toInt32 aCellID

/-- Source: `CellID convertFirst32to64(const int aId32) const { return (CellID)aId32; }` -/
def convertFirst32to64 (aId32 : Int) : Nat :=
  toCellID aId32

/-- Modelled from the spec: the body of `getLast32bits` is not part of the header (only
its declaration `int getLast32bits(const CellID&) const` is).  The spec describes the
32-bit legacy view as one half of the identifier each, `getLast32bits` being the
truncation to the half that `getFirst32bits` does not return: the high 32 bits, read
as an `int`. -/
def getLast32bits (aCellID : Nat) : Int :=
  toInt32 (aCellID / 2 ^ 32)

/-- Modelled from the spec: the body of `convertLast32to64` is not part of the header
(only its declaration `CellID convertLast32to64(const int) const` is).  The spec asks
for the exact inverse of the corresponding truncation with the other half restored as
zero: the 32-bit value is put into the high half, the low half is zero. -/
def convertLast32to64 (aId32 : Int) : Nat :=
  (toCellID aId32 * 2 ^ 32) % 2 ^ 64

/-- Combination of the two widened halves by bitwise OR. -/
def combineHalves (first last : Nat) : Nat :=
  first ||| last

/-! ## GridDRcalo_k4geo: identifier codec

The bodies of `setCellID` and of the field accessors live in a translation unit that
is not part of the sources at hand; the header only declares them.  The bit-field
coder itself belongs to the host framework. -/

/-- Modelled from the spec: one entry of the schema table (name to offset and width)
that the spec describes for the bit layout of the 64-bit identifier. -/
structure BitFieldElement where
  offset : Nat
  width : Nat
deriving DecidableEq, Repr

/-- Modelled from the spec: extraction of a sub-field, a pure bit extraction (shift the
identifier right by the offset and keep `width` bits). -/
def BitFieldElement.value (f : BitFieldElement) (id : Nat) : Nat :=
  (id >>> f.offset) % 2 ^ f.width

/-- Modelled from the spec: the bits that packing the value `v` into the sub-field
contributes to the identifier (the low `width` bits of `v`, shifted to the offset). -/
def BitFieldElement.put (f : BitFieldElement) (v : Int) : Nat :=
  ((v % 2 ^ f.width).toNat) <<< f.offset

/-- Two sub-fields occupy disjoint bit ranges. -/
def BitFieldElement.disjoint (f g : BitFieldElement) : Prop :=
  f.offset + f.width ≤ g.offset ∨ g.offset + g.width ≤ f.offset

instance (f g : BitFieldElement) : Decidable (f.disjoint g) := by
  unfold BitFieldElement.disjoint; infer_instance

/-- A value is in the range of a sub-field. -/
def BitFieldElement.holds (f : BitFieldElement) (v : Int) : Prop :=
  0 ≤ v ∧ v < 2 ^ f.width

instance (f : BitFieldElement) (v : Int) : Decidable (f.holds v) := by
  unfold BitFieldElement.holds; infer_instance

/-- Modelled from the spec: the fixed bit layout of the identifier, one sub-field for
each component of the tuple `side, system, towerEta, towerPhi, localX, localY,
isCerenkov`.  The spec leaves the widths and offsets to the deployment, so they are
parameters here. -/
structure Schema where
  assembly : BitFieldElement
  system : BitFieldElement
  numEta : BitFieldElement
  numPhi : BitFieldElement
  x : BitFieldElement
  y : BitFieldElement
  isCerenkov : BitFieldElement
deriving DecidableEq, Repr

/-- The sub-fields of a schema, in the order of the tuple. -/
def Schema.fields (S : Schema) : List BitFieldElement :=
  [S.assembly, S.system, S.numEta, S.numPhi, S.x, S.y, S.isCerenkov]

/-- A schema is well formed when its sub-fields are pairwise disjoint, lie inside the 64
bits of a CellID, and the two one-bit flags have at least one bit. -/
def Schema.WellFormed (S : Schema) : Prop :=
  S.fields.Pairwise BitFieldElement.disjoint ∧
    (∀ f ∈ S.fields, f.offset + f.width ≤ 64) ∧
    0 < S.assembly.width ∧ 0 < S.isCerenkov.width

instance (S : Schema) : Decidable S.WellFormed := by
  unfold Schema.WellFormed; infer_instance

/-- The decoded tuple of the spec's data model. -/
structure CellTuple where
  isRHS : Bool
  systemId : Int
  numEta : Int
  numPhi : Int
  x : Int
  y : Int
  isCerenkov : Bool
deriving DecidableEq, Repr

/-- Modelled from the spec: `setCellID` is only declared in the header, as
`CellID setCellID(bool isRHS, int systemId, int numEta, int numPhi, int x, int y) const`.
It packs its six arguments into their sub-fields.  The Cerenkov flag is not an argument:
whatever the absent body writes into that sub-field is a function `cerenkovOf` of the six
arguments, taken as a parameter. -/
def setCellID (S : Schema) (cerenkovOf : Bool → Int → Int → Int → Int → Int → Bool)
    (isRHS : Bool) (systemId numEta numPhi x y : Int) : Nat :=
  S.assembly.put (if isRHS then 1 else 0) ||| S.system.put systemId |||
    S.numEta.put numEta ||| S.numPhi.put numPhi ||| S.x.put x ||| S.y.put y |||
    S.isCerenkov.put (if cerenkovOf isRHS systemId numEta numPhi x y then 1 else 0)

/-- Modelled from the spec: `bool IsRHS(const CellID&)`, the side bit of the identifier. -/
def IsRHS (S : Schema) (aCellID : Nat) : Bool :=
  decide (S.assembly.value aCellID = 1)

/-- Modelled from the spec: the system (region) tag of the identifier. -/
def systemId (S : Schema) (aCellID : Nat) : Int :=
  (S.system.value aCellID : Int)

/-- Modelled from the spec: `int numEta(const CellID&)`. -/
def numEta (S : Schema) (aCellID : Nat) : Int :=
  (S.numEta.value aCellID : Int)

/-- Modelled from the spec: `int numPhi(const CellID&)`. -/
def numPhi (S : Schema) (aCellID : Nat) : Int :=
  (S.numPhi.value aCellID : Int)

/-- Modelled from the spec: `int x(const CellID&)`. -/
def x (S : Schema) (aCellID : Nat) : Int :=
  (S.x.value aCellID : Int)

/-- Modelled from the spec: `int y(const CellID&)`. -/
def y (S : Schema) (aCellID : Nat) : Int :=
  (S.y.value aCellID : Int)

/-- Modelled from the spec: `bool IsCerenkov(const CellID&)`, the flag bit. -/
def IsCerenkov (S : Schema) (aCellID : Nat) : Bool :=
  decide (S.isCerenkov.value aCellID = 1)

/-- Decoding of an identifier through the accessors. -/
def decode (S : Schema) (aCellID : Nat) : CellTuple :=
  { isRHS := IsRHS S aCellID
    systemId := systemId S aCellID
    numEta := numEta S aCellID
    numPhi := numPhi S aCellID
    x := x S aCellID
    y := y S aCellID
    isCerenkov := IsCerenkov S aCellID }

/-- A tuple is in the valid domain of a schema when each integer component is in the
range of its sub-field. -/
def CellTuple.Valid (S : Schema) (t : CellTuple) : Prop :=
  S.system.holds t.systemId ∧ S.numEta.holds t.numEta ∧ S.numPhi.holds t.numPhi ∧
    S.x.holds t.x ∧ S.y.holds t.y

instance (S : Schema) (t : CellTuple) : Decidable (t.Valid S) := by
  unfold CellTuple.Valid; infer_instance

/-- A layout with the widths the spec gives as an example: side 1 bit, system 5 bits,
tower indices 10 bits each in the low half; local x and y 10 bits each and the
Cerenkov flag in the high half. -/
def exampleSchema : Schema :=
  { assembly := ⟨0, 1⟩
    system := ⟨1, 5⟩
    numEta := ⟨6, 10⟩
    numPhi := ⟨16, 10⟩
    x := ⟨32, 10⟩
    y := ⟨42, 10⟩
    isCerenkov := ⟨52, 1⟩ }

/-- A sample rule for the Cerenkov flag (checkerboard in `x`, `y`), used to evaluate the
codec on concrete input. -/
def exampleCerenkovOf : Bool → Int → Int → Int → Int → Int → Bool :=
  fun _ _ _ _ x y => decide ((x + y) % 2 = 1)

/-! ## GridDRcalo_k4geo: configuration -/

/-- The data members of `GridDRcalo_k4geo` (protected field names and sizes, private
parameter pointers). -/
structure GridDRcalo where
  fAssemblyId : String
  fNumEtaId : String
  fNumPhiId : String
  fXId : String
  fYId : String
  fIsCerenkovId : String
  fModule : String
  fGridSize : ℚ
  fSipmSize : ℚ
  fParamBarrel : Nat
  fParamEndcap : Nat

namespace GridDRcalo

/-- Source: `void setGridSize(double grid) { fGridSize = grid; }` -/
def setGridSize (s : GridDRcalo) (grid : ℚ) : GridDRcalo := { s with fGridSize := grid }

/-- Source: `void setSipmSize(double sipm) { fSipmSize = sipm; }` -/
def setSipmSize (s : GridDRcalo) (sipm : ℚ) : GridDRcalo := { s with fSipmSize := sipm }

/-- Source: `fieldNameAssembly() const { return fAssemblyId; }` -/
def fieldNameAssembly (s : GridDRcalo) : String := s.fAssemblyId

/-- Source: `fieldNameNumEta() const { return fNumEtaId; }` -/
def fieldNameNumEta (s : GridDRcalo) : String := s.fNumEtaId

/-- Source: `fieldNameNumPhi() const { return fNumPhiId; }` -/
def fieldNameNumPhi (s : GridDRcalo) : String := s.fNumPhiId

/-- Source: `fieldNameX() const { return fXId; }` -/
def fieldNameX (s : GridDRcalo) : String := s.fXId

/-- Source: `fieldNameY() const { return fYId; }` -/
def fieldNameY (s : GridDRcalo) : String := s.fYId

/-- Source: `fieldNameIsCerenkov() const { return fIsCerenkovId; }` -/
def fieldNameIsCerenkov (s : GridDRcalo) : String := s.fIsCerenkovId

/-- Source: `fieldNameModule() const { return fModule; }` -/
def fieldNameModule (s : GridDRcalo) : String := s.fModule

/-- Source: `setFieldNameAssembly(const std::string& fieldName) { fAssemblyId = fieldName; }` -/
def setFieldNameAssembly (s : GridDRcalo) (fieldName : String) : GridDRcalo :=
  { s with fAssemblyId := fieldName }

/-- Source: `setFieldNameNumEta(const std::string& fieldName) { fNumEtaId = fieldName; }` -/
def setFieldNameNumEta (s : GridDRcalo) (fieldName : String) : GridDRcalo :=
  { s with fNumEtaId := fieldName }

/-- Source: `setFieldNameNumPhi(const std::string& fieldName) { fNumPhiId = fieldName; }` -/
def setFieldNameNumPhi (s : GridDRcalo) (fieldName : String) : GridDRcalo :=
  { s with fNumPhiId := fieldName }

/-- Source: `setFieldNameX(const std::string& fieldName) { fXId = fieldName; }` -/
def setFieldNameX (s : GridDRcalo) (fieldName : String) : GridDRcalo :=
  { s with fXId := fieldName }

/-- Source: `setFieldNameY(const std::string& fieldName) { fYId = fieldName; }` -/
def setFieldNameY (s : GridDRcalo) (fieldName : String) : GridDRcalo :=
  { s with fYId := fieldName }

/-- Source: `setFieldNameIsCerenkov(const std::string& fieldName) { fIsCerenkovId = fieldName; }` -/
def setFieldNameIsCerenkov (s : GridDRcalo) (fieldName : String) : GridDRcalo :=
  { s with fIsCerenkovId := fieldName }

/-- Source: `setFieldNameModule(const std::string& fieldName) { fModule = fieldName; }` -/
def setFieldNameModule (s : GridDRcalo) (fieldName : String) : GridDRcalo :=
  { s with fModule := fieldName }

end GridDRcalo

/-! ## GridDRcalo_k4geo: 32-bit accessor overloads -/

/-- The 64-bit accessors of `GridDRcalo_k4geo` that the 32-bit overloads call.  The header
only declares them (`int numEta(const CellID&) const` and so on), so they are taken as
parameters. -/
structure Accessors64 where
  numEta : Nat → Int
  numPhi : Nat → Int
  numX : Nat → Int
  numY : Nat → Int
  x : Nat → Int
  y : Nat → Int
  IsCerenkov : Nat → Bool
  IsTower : Nat → Bool
  IsSiPM : Nat → Bool

namespace Legacy32

/-- Source: `int numEta(const int& aId32) const { return numEta(convertFirst32to64(aId32)); }` -/
def numEta (acc : Accessors64) (aId32 : Int) : Int :=
  acc.numEta (convertFirst32to64 aId32)

/-- Source: `int numPhi(const int& aId32) const { return numPhi(convertFirst32to64(aId32)); }` -/
def numPhi (acc : Accessors64) (aId32 : Int) : Int :=
  acc.numPhi (convertFirst32to64 aId32)

/-- Source: `int numX(const int& aId32) const { return numX(convertFirst32to64(aId32)); }` -/
def numX (acc : Accessors64) (aId32 : Int) : Int :=
  acc.numX (convertFirst32to64 aId32)

/-- Source: `int numY(const int& aId32) const { return numY(convertFirst32to64(aId32)); }` -/
def numY (acc : Accessors64) (aId32 : Int) : Int :=
  acc.numY (convertFirst32to64 aId32)

/-- Source: `int x(const int& aId32) const { return x(convertLast32to64(aId32)); }` -/
def x (acc : Accessors64) (aId32 : Int) : Int :=
  acc.x (convertLast32to64 aId32)

/-- Source: `int y(const int& aId32) const { return y(convertLast32to64(aId32)); }` -/
def y (acc : Accessors64) (aId32 : Int) : Int :=
  acc.y (convertLast32to64 aId32)

/-- Source:
`bool IsCerenkov(const int& aId32) const { return IsCerenkov(convertLast32to64(aId32)); }` -/
def IsCerenkov (acc : Accessors64) (aId32 : Int) : Bool :=
  acc.IsCerenkov (convertLast32to64 aId32)

/-- Source:
`bool IsTower(const int& aId32) const { return IsTower(convertLast32to64(aId32)); }` -/
def IsTower (acc : Accessors64) (aId32 : Int) : Bool :=
  acc.IsTower (convertLast32to64 aId32)

/-- Source:
`bool IsSiPM(const int& aId32) const { return IsSiPM(convertLast32to64(aId32)); }` -/
def IsSiPM (acc : Accessors64) (aId32 : Int) : Bool :=
  acc.IsSiPM (convertLast32to64 aId32)

end Legacy32

/-! ## Double precision arithmetic

The IEEE 754 binary64 numbers (`double`) as rational numbers, with the rounding of one
arithmetic operation: round to nearest, ties to even, with gradual underflow.  Results
beyond the largest finite double are rounded as if the exponent range had no upper end
(infinity is not represented; the sign of a result is the same). -/

namespace Binary64

/-- Rounding of a rational number to the nearest integer, ties to the even one. -/
def roundHalfEven (q : ℚ) : ℤ :=
  if q - Int.floor q < 1 / 2 then Int.floor q
  else if 1 / 2 < q - Int.floor q then Int.floor q + 1
  else if Int.floor q % 2 = 0 then Int.floor q
  else Int.floor q + 1

/-- The binary exponent of the binade of `x`, not below the smallest normal exponent
`-1022` (all subnormal numbers share it). -/
def exponent (x : ℚ) : ℤ :=
  max (Int.log 2 |x|) (-1022)

/-- The spacing of the doubles in the binade of `x`: 52 fraction bits. -/
def ulp (x : ℚ) : ℚ :=
  2 ^ (exponent x - 52)

/-- The double nearest to `x` (ties to even): the result of an arithmetic operation whose
exact result is `x`. -/
def roundDouble (x : ℚ) : ℚ :=
  (roundHalfEven (x / ulp x) : ℚ) * ulp x

/-- The finite doubles: `m * 2^e` with a significand `|m| < 2^53` and
`-1074 <= e <= 971`. -/
def isDouble (x : ℚ) : Prop :=
  ∃ m e : ℤ, |m| < 2 ^ 53 ∧ -1074 ≤ e ∧ e ≤ 971 ∧ x = (m : ℚ) * 2 ^ e

end Binary64

/-! ## SimpleCylinder_o1_v02: createSimpleCylinder -/

namespace SimpleCylinder

/-- One `layer` element of the `layers` collection of the XML description. -/
structure XmlLayer where
  repeatCount : Int
  thickness : ℚ
deriving DecidableEq, Repr

/-- The `dimensions` element of the XML description (`cylinderDim`). -/
structure Dimensions where
  rmin : ℚ
  rmax : ℚ
  dz : ℚ
  z_offset : ℚ
  phi0 : ℚ
  deltaphi : ℚ
deriving DecidableEq, Repr

/-- The material of the cylinder, as far as the builder reads it. -/
structure Material where
  radLength : ℚ
  intLength : ℚ
deriving DecidableEq, Repr

/-- What `createSimpleCylinder` reads from its arguments: the detector element of the
compact file and the segmentation of the readout of the sensitive detector. -/
structure Input where
  name : String
  detID : Int
  cylinderDim : Dimensions
  layers : List XmlLayer
  isSensitive : Bool
  mat : Material
  /-- whether the dynamic cast of the segmentation to `FCCSWGridPhiTheta_k4geo` succeeds -/
  segIsPhiTheta : Bool
  /-- the result of `cellDimensions(0)` -/
  cellDimensions : List ℚ
deriving DecidableEq, Repr

/-- A `dd4hep::Tube(rmin, rmax, dz, phi0, deltaphi)`; `dz` is the half length in z. -/
structure Tube where
  rmin : ℚ
  rmax : ℚ
  dz : ℚ
  phi0 : ℚ
  deltaphi : ℚ
deriving DecidableEq, Repr

/-- A layer volume placed inside the envelope volume. -/
structure LayerPlacement where
  volumeName : String
  shape : Tube
  /-- z of the translation of the placement (0 when placed without a transform) -/
  zPosition : ℚ
  sensitive : Bool
  /-- the value given to `addPhysVolID("layer", ..)` -/
  layerId : Int
deriving DecidableEq, Repr

/-- An envelope volume (a whole endcap, or the barrel) placed in the assembly. -/
structure EnvelopePlacement where
  shape : Tube
  /-- angle of the `RotationZ`, in degrees -/
  rot : Int
  /-- z of the translation of the placement -/
  zoffset : ℚ
  /-- the value given to `addPhysVolID("subsystem", ..)` -/
  subsystem : Int
  layers : List LayerPlacement
deriving DecidableEq, Repr

/-- The type `dd4hep::rec::LayeredCalorimeterData::LayoutType`. -/
inductive LayoutType where
  | BarrelLayout
  | EndcapLayout
deriving DecidableEq, Repr

/-- The type `dd4hep::rec::LayeredCalorimeterData::Layer`, the members the builder sets. -/
structure CaloLayer where
  distance : ℚ
  sensitive_thickness : ℚ
  inner_thickness : ℚ
  inner_nRadiationLengths : ℚ
  inner_nInteractionLengths : ℚ
  outer_thickness : ℚ
  outer_nRadiationLengths : ℚ
  outer_nInteractionLengths : ℚ
  cellSize0 : ℚ
  cellSize1 : ℚ
deriving DecidableEq, Repr

/-- The type `dd4hep::rec::LayeredCalorimeterData`, the members the builder sets. -/
structure LayeredCalorimeterData where
  extent0 : ℚ
  extent1 : ℚ
  extent2 : ℚ
  extent3 : ℚ
  layoutType : LayoutType
  layers : List CaloLayer
deriving DecidableEq, Repr

/-- What `createSimpleCylinder` builds: the assembly with its placed envelopes, the
system id of the assembly placement and the calorimeter data attached to the detector. -/
structure Detector where
  assemblyName : String
  envelopes : List EnvelopePlacement
  systemId : Int
  caloData : LayeredCalorimeterData
deriving DecidableEq, Repr

/-- Source, lines 31-41: `nLayers += layer.repeat()` over the `layer` collection. -/
def nLayers (layers : List XmlLayer) : Int :=
  layers.foldl (fun n layer => n + layer.repeatCount) 0

/-- Source, line 61: `double zmin = zoff - cylinderDim.dz();` -/
def zmin (cylinderDim : Dimensions) : ℚ :=
  cylinderDim.z_offset - cylinderDim.dz

/-- Source, line 62: `double zmax = zoff + cylinderDim.dz();` -/
def zmax (cylinderDim : Dimensions) : ℚ :=
  cylinderDim.z_offset + cylinderDim.dz

/-- Source, line 63: `bool isEndcap = (zmin * zmax > 0.);` -/
def isEndcap (cylinderDim : Dimensions) : Bool :=
  decide (zmin cylinderDim * zmax cylinderDim > 0)

/-- Source, lines 100 and 165: `double dzLayer = cylinderDim.dz() * 2.0 / nLayers;` -/
def dzLayer (cylinderDim : Dimensions) (n : Int) : ℚ :=
  cylinderDim.dz * 2 / (n : ℚ)

/-- Source, line 104:
`double zMiddle = -cylinderDim.dz() + dzLayer / 2.0 + iLayer * dzLayer;` -/
def zMiddle (cylinderDim : Dimensions) (n : Int) (iLayer : Nat) : ℚ :=
  -cylinderDim.dz + dzLayer cylinderDim n / 2 + (iLayer : ℚ) * dzLayer cylinderDim n

/-- Source, line 238:
`double drLayer = (cylinderDim.rmax() - cylinderDim.rmin()) / nLayers;` -/
def drLayer (cylinderDim : Dimensions) (n : Int) : ℚ :=
  (cylinderDim.rmax - cylinderDim.rmin) / (n : ℚ)

/-- Source, lines 102-136: the body of the layer loop of one endcap, for one `iLayer`. -/
def endcapLayer (inp : Input) (n : Int) (iEndcap : Nat) (iLayer : Nat) : LayerPlacement :=
  { volumeName := inp.name ++ "_side" ++ toString iEndcap ++ "_layer" ++ toString iLayer
    shape :=
      { rmin := inp.cylinderDim.rmin
        rmax := inp.cylinderDim.rmax
        dz := dzLayer inp.cylinderDim n / 2
        phi0 := inp.cylinderDim.phi0
        deltaphi := inp.cylinderDim.deltaphi }
    zPosition := zMiddle inp.cylinderDim n iLayer
    sensitive := inp.isSensitive
    layerId := (iLayer : Int) }

/-- Source, lines 73-137: the body of the loop over the endcaps, for one `iEndcap`. -/
def endcapEnvelope (inp : Input) (n : Int) (iEndcap : Nat) : EnvelopePlacement :=
  { shape :=
      { rmin := inp.cylinderDim.rmin
        rmax := inp.cylinderDim.rmax
        dz := inp.cylinderDim.dz
        phi0 := inp.cylinderDim.phi0
        deltaphi := inp.cylinderDim.deltaphi }
    rot := if iEndcap = 1 then 0 else 180
    zoffset := if iEndcap = 1 then inp.cylinderDim.z_offset else -inp.cylinderDim.z_offset
    subsystem := (iEndcap : Int)
    layers := (List.range n.toNat).map (endcapLayer inp n iEndcap) }

/-- Source, lines 240-270: the barrel layer loop, `todo` iterations from `iLayer` on,
with the running inner radius `rIn` (`rIn += drLayer` at the end of each iteration). -/
def barrelLayerLoop (inp : Input) (dr : ℚ) : Nat → Nat → ℚ → List LayerPlacement
  | 0, _, _ => []
  | todo + 1, iLayer, rIn =>
    let rOut := rIn + dr
    { volumeName := inp.name ++ "_layer" ++ toString iLayer
      shape :=
        { rmin := rIn
          rmax := rOut
          dz := inp.cylinderDim.dz
          phi0 := inp.cylinderDim.phi0
          deltaphi := inp.cylinderDim.deltaphi }
      zPosition := 0
      sensitive := inp.isSensitive
      layerId := (iLayer : Int) } :: barrelLayerLoop inp dr todo (iLayer + 1) (rIn + dr)

/-- Source, lines 220-270: the barrel envelope with its layers. -/
def barrelEnvelope (inp : Input) (n : Int) : EnvelopePlacement :=
  { shape :=
      { rmin := inp.cylinderDim.rmin
        rmax := inp.cylinderDim.rmax
        dz := inp.cylinderDim.dz
        phi0 := inp.cylinderDim.phi0
        deltaphi := inp.cylinderDim.deltaphi }
    rot := 0
    zoffset := 0
    subsystem := 0
    layers := barrelLayerLoop inp (drLayer inp.cylinderDim n) n.toNat 0 inp.cylinderDim.rmin }

/-- Source, lines 192-208 and 325-341: the two cell sizes stored in a calorimeter-data
layer.  (Reading `cellSizeVector[k]` beyond the end of the vector is undefined in the
source; it is read as 0 here.) -/
def cellSizes (inp : Input) : ℚ × ℚ :=
  if inp.segIsPhiTheta then
    let cellSizeTheta := inp.cellDimensions.getD 1 0
    let cellSizePhi := inp.cellDimensions.getD 0 0
    (cellSizeTheta, cellSizePhi)
  else
    (inp.cellDimensions.getD 0 0, inp.cellDimensions.getD 1 0)

/-- Source, lines 168-212 (endcap, `zIn` and `dzLayer`) and 300-345 (barrel, `rIn` and
`drLayer`): the calorimeter-data layer with innermost face at `faceIn` and thickness
`dLayer`. -/
def caloLayer (inp : Input) (faceIn dLayer : ℚ) : CaloLayer :=
  { distance := faceIn
    sensitive_thickness := dLayer
    inner_thickness := dLayer / 2
    inner_nRadiationLengths := dLayer / 2 / inp.mat.radLength
    inner_nInteractionLengths := dLayer / 2 / inp.mat.intLength
    outer_thickness := dLayer / 2
    outer_nRadiationLengths := dLayer / 2 / inp.mat.radLength
    outer_nInteractionLengths := dLayer / 2 / inp.mat.intLength
    cellSize0 := (cellSizes inp).1
    cellSize1 := (cellSizes inp).2 }

/-- Source, lines 168-212: the endcap calorimeter-data loop,
`double zIn = zmin + idxLayer * dzLayer;`. -/
def endcapCaloLayers (inp : Input) (n : Int) : List CaloLayer :=
  (List.range n.toNat).map fun (idxLayer : Nat) =>
    caloLayer inp (zmin inp.cylinderDim + (idxLayer : ℚ) * dzLayer inp.cylinderDim n)
      (dzLayer inp.cylinderDim n)

/-- Source, lines 300-345: the barrel calorimeter-data loop,
`rIn = cylinderDim.rmin() + idxLayer * drLayer;`. -/
def barrelCaloLayers (inp : Input) (n : Int) : List CaloLayer :=
  (List.range n.toNat).map fun (idxLayer : Nat) =>
    caloLayer inp (inp.cylinderDim.rmin + (idxLayer : ℚ) * drLayer inp.cylinderDim n)
      (drLayer inp.cylinderDim n)

/-- Source, lines 21-355: `createSimpleCylinder`. -/
def createSimpleCylinder (inp : Input) : Detector :=
  let n := nLayers inp.layers
  if isEndcap inp.cylinderDim then
    { assemblyName := "Endcaps_assembly"
      envelopes := (List.range 2).map (endcapEnvelope inp n)
      systemId := inp.detID
      caloData :=
        { extent0 := inp.cylinderDim.rmin
          extent1 := inp.cylinderDim.rmax
          extent2 := zmin inp.cylinderDim
          extent3 := zmax inp.cylinderDim
          layoutType := LayoutType.EndcapLayout
          layers := endcapCaloLayers inp n } }
  else
    { assemblyName := "Barrel_assembly"
      envelopes := [barrelEnvelope inp n]
      systemId := inp.detID
      caloData :=
        { extent0 := inp.cylinderDim.rmin
          extent1 := inp.cylinderDim.rmax
          extent2 := 0
          extent3 := inp.cylinderDim.dz
          layoutType := LayoutType.BarrelLayout
          layers := barrelCaloLayers inp n } }

/-- A sample endcap description: z range `[8, 12]`, radii `[1, 5]`, four layers given as
`3 + 1` repeats with unequal thicknesses. -/
def exampleEndcap : Input :=
  { name := "Cyl"
    detID := 7
    cylinderDim := { rmin := 1, rmax := 5, dz := 2, z_offset := 10, phi0 := 0, deltaphi := 6 }
    layers := [⟨3, 1 / 2⟩, ⟨1, 7⟩]
    isSensitive := true
    mat := { radLength := 3, intLength := 11 }
    segIsPhiTheta := true
    cellDimensions := [1 / 10, 1 / 20] }

/-- A sample barrel description: z range `[-2, 2]`, radii `[1, 5]`, four layers. -/
def exampleBarrel : Input :=
  { name := "Cyl"
    detID := 8
    cylinderDim := { rmin := 1, rmax := 5, dz := 2, z_offset := 0, phi0 := 0, deltaphi := 6 }
    layers := [⟨3, 1 / 2⟩, ⟨1, 7⟩]
    isSensitive := true
    mat := { radLength := 3, intLength := 11 }
    segIsPhiTheta := false
    cellDimensions := [1 / 10, 1 / 20] }

/-- Source, lines 65-346: the result of `createSimpleCylinder` as a function of the value
of the test `isEndcap` of line 63 (the two branches of the `if`). -/
def createSimpleCylinderOn (isEndcap : Bool) (inp : Input) : Detector :=
  let n := nLayers inp.layers
  if isEndcap then
    { assemblyName := "Endcaps_assembly"
      envelopes := (List.range 2).map (endcapEnvelope inp n)
      systemId := inp.detID
      caloData :=
        { extent0 := inp.cylinderDim.rmin
          extent1 := inp.cylinderDim.rmax
          extent2 := zmin inp.cylinderDim
          extent3 := zmax inp.cylinderDim
          layoutType := LayoutType.EndcapLayout
          layers := endcapCaloLayers inp n } }
  else
    { assemblyName := "Barrel_assembly"
      envelopes := [barrelEnvelope inp n]
      systemId := inp.detID
      caloData :=
        { extent0 := inp.cylinderDim.rmin
          extent1 := inp.cylinderDim.rmax
          extent2 := 0
          extent3 := inp.cylinderDim.dz
          layoutType := LayoutType.BarrelLayout
          layers := barrelCaloLayers inp n } }

/-! ### The same computations in double arithmetic

Every arithmetic operation of the source on `double` values is followed by one rounding
(`Binary64.roundDouble`); the dimensions read from the XML are doubles. -/

namespace Double

/-- Source, line 61: `double zmin = zoff - cylinderDim.dz();` in double arithmetic. -/
def zmin (cylinderDim : Dimensions) : ℚ :=
  Binary64.roundDouble (cylinderDim.z_offset - cylinderDim.dz)

/-- Source, line 62: `double zmax = zoff + cylinderDim.dz();` in double arithmetic. -/
def zmax (cylinderDim : Dimensions) : ℚ :=
  Binary64.roundDouble (cylinderDim.z_offset + cylinderDim.dz)

/-- Source, line 63: `bool isEndcap = (zmin * zmax > 0.);` in double arithmetic. -/
def isEndcap (cylinderDim : Dimensions) : Bool :=
  decide (Binary64.roundDouble (zmin cylinderDim * zmax cylinderDim) > 0)

/-- The function `createSimpleCylinder` with the test of line 63 evaluated in double
arithmetic: the branch that the code takes.  The numeric members of the result are those
of the exact model. -/
def createSimpleCylinder (inp : Input) : Detector :=
  createSimpleCylinderOn (isEndcap inp.cylinderDim) inp

/-- Source, line 238: `double drLayer = (cylinderDim.rmax() - cylinderDim.rmin()) / nLayers;`
in double arithmetic, for `nLayers` other than 0 (the `int` is converted exactly). -/
def drLayer (cylinderDim : Dimensions) (n : Int) : ℚ :=
  Binary64.roundDouble (Binary64.roundDouble (cylinderDim.rmax - cylinderDim.rmin) / (n : ℚ))

/-- Source, lines 239-269: the inner radius `rIn` of the tube of barrel layer `iLayer`,
the value after `iLayer` executions of `rIn += drLayer` in double arithmetic. -/
def rIn (cylinderDim : Dimensions) (n : Int) : Nat → ℚ
  | 0 => cylinderDim.rmin
  | iLayer + 1 => Binary64.roundDouble (rIn cylinderDim n iLayer + drLayer cylinderDim n)

/-- Source, lines 303 and 306: the distance recorded for barrel layer `idxLayer`,
`cylinderDim.rmin() + idxLayer * drLayer` in double arithmetic. -/
def distance (cylinderDim : Dimensions) (n : Int) (idxLayer : Nat) : ℚ :=
  Binary64.roundDouble
    (cylinderDim.rmin + Binary64.roundDouble ((idxLayer : ℚ) * drLayer cylinderDim n))

/-- Source, lines 100 and 165: `double dzLayer = cylinderDim.dz() * 2.0 / nLayers;` in
double arithmetic, for `nLayers` other than 0. -/
def dzLayer (cylinderDim : Dimensions) (n : Int) : ℚ :=
  Binary64.roundDouble (Binary64.roundDouble (cylinderDim.dz * 2) / (n : ℚ))

/-- Source, line 104: `double zMiddle = -cylinderDim.dz() + dzLayer / 2.0 + iLayer * dzLayer;`
in double arithmetic, the sums taken from left to right. -/
def zMiddle (cylinderDim : Dimensions) (n : Int) (iLayer : Nat) : ℚ :=
  Binary64.roundDouble
    (Binary64.roundDouble (-cylinderDim.dz + Binary64.roundDouble (dzLayer cylinderDim n / 2)) +
      Binary64.roundDouble ((iLayer : ℚ) * dzLayer cylinderDim n))

end Double

/-- A description with a tiny z range on the positive side: `z_offset = 2^-600` and
`dz = 2^-601`, so that the z range is `[2^-601, 3 * 2^-601]`. -/
def exampleUnderflow : Input :=
  { name := "Cyl"
    detID := 9
    cylinderDim :=
      { rmin := 1, rmax := 5, dz := 2 ^ (-601 : ℤ), z_offset := 2 ^ (-600 : ℤ), phi0 := 0,
        deltaphi := 6 }
    layers := [⟨3, 1 / 2⟩]
    isSensitive := true
    mat := { radLength := 3, intLength := 11 }
    segIsPhiTheta := false
    cellDimensions := [1 / 10, 1 / 20] }

end SimpleCylinder

/-! ## ECalEndcap_Turbine_o1_v01: buildWheel

The wheel builder is modelled over an ordered field `K` standing for `float` and
`double` (exact arithmetic), with the functions of the math library as a parameter.  The
model keeps the control flow, the error reports, the volumes that are created (name,
radial range, sensitivity), the placements with their physical-volume identifiers, the
detector elements and the global element counter.  The solid shapes and the placement
transforms are not represented. -/

namespace ECalEndcapTurbine

/-- The functions and constants of `TMath` that `buildWheel` uses before it creates a
volume. -/
structure TMath (K : Type) where
  Tan : K → K
  ATan : K → K
  Pi : K

/-- A value of type `float` or `double` in the blade-angle computation of lines 74-83:
NaN, an infinity with its sign, or a finite number `x`; `negativeZero` is the sign of the
zero when `x = 0` (it has no meaning for another `x`).  The arithmetic on finite numbers
is that of the field `K`, without rounding, overflow or underflow. -/
inductive Fp (K : Type) where
  | nan
  | inf (negative : Bool)
  | fin (x : K) (negativeZero : Bool)

namespace Fp

/-- A number of the field as a floating-point value; 0 is the positive zero. -/
def ofField {K : Type} (x : K) : Fp K :=
  fin x false

/-- The sign bit of a value (NaN counts as not negative). -/
def negative {K : Type} [LinearOrderedField K] : Fp K → Bool
  | nan => false
  | inf s => s
  | fin x s => if x = 0 then s else decide (x < 0)

/-- The product: NaN for a NaN operand and for infinity times zero; an infinity times
any other value is an infinity; the sign is the product of the signs. -/
def mul {K : Type} [LinearOrderedField K] : Fp K → Fp K → Fp K
  | nan, _ => nan
  | inf _, nan => nan
  | inf s, inf t => inf (s != t)
  | inf s, fin y t => if y = 0 then nan else inf (s != negative (fin y t))
  | fin _ _, nan => nan
  | fin x s, inf t => if x = 0 then nan else inf (negative (fin x s) != t)
  | fin x s, fin y t => fin (x * y) (negative (fin x s) != negative (fin y t))

/-- The quotient: NaN for a NaN operand, for infinity by infinity and for zero by zero;
a finite value by an infinity is a zero; a value other than zero by a zero is an
infinity; the sign is the product of the signs. -/
def div {K : Type} [LinearOrderedField K] : Fp K → Fp K → Fp K
  | nan, _ => nan
  | inf _, nan => nan
  | inf _, inf _ => nan
  | inf s, fin y t => inf (s != negative (fin y t))
  | fin _ _, nan => nan
  | fin x s, inf t => fin 0 (negative (fin x s) != t)
  | fin x s, fin y t =>
    if y = 0 then
      if x = 0 then nan else inf (negative (fin x s) != negative (fin y t))
    else fin (x / y) (negative (fin x s) != negative (fin y t))

/-- The function `TMath::Abs`. -/
def abs {K : Type} [LinearOrderedField K] : Fp K → Fp K
  | nan => nan
  | inf _ => inf false
  | fin x _ => fin |x| false

/-- The function `TMath::Tan`: NaN at NaN and at an infinity, a zero at the same zero. -/
def tan {K : Type} (tm : TMath K) : Fp K → Fp K
  | nan => nan
  | inf _ => nan
  | fin x s => fin (tm.Tan x) s

/-- The function `TMath::ATan`: `pi/2` at `+infinity`, `-pi/2` at `-infinity`, a zero at
the same zero. -/
def atan {K : Type} [LinearOrderedField K] (tm : TMath K) : Fp K → Fp K
  | nan => nan
  | inf s => fin (if s then -(tm.Pi / 2) else tm.Pi / 2) false
  | fin x s => fin (tm.ATan x) s

/-- The comparison `a < b`: false when an operand is NaN. -/
def lt {K : Type} [LinearOrderedField K] : Fp K → Fp K → Bool
  | nan, _ => false
  | inf _, nan => false
  | inf s, inf t => s && !t
  | inf s, fin _ _ => s
  | fin _ _, nan => false
  | fin _ _, inf t => !t
  | fin x _, fin y _ => decide (x < y)

end Fp

/-- The attributes of the XML description that `buildWheel` reads. -/
structure WheelXml (K : Type) where
  /-- attribute `angle` of `turbineBlade` -/
  angle : K
  decreaseAnglePerWheel : Bool
  /-- value `rmin1` of `dimensions` -/
  grmin : K
  absBladeThickness : K
  glueThickness : K
  claddingThickness : K
  sameNUnitCells : Bool
  /-- attribute `nUnitCells` of `turbineBlade`, a string -/
  nUnitCells : String
  nUnitCellsLeastCommonMultiple : Int
  claddingSensitive : Bool
  glueSensitive : Bool
  absBladeSensitive : Bool
  electrodeBladeSensitive : Bool
  nobleLiquidSensitive : Bool

/-- The error messages that `buildWheel` prints. -/
inductive ErrorMessage (K : Type) where
  /-- Message "The requested blade angle is too small ... Please adjust to at least %f degrees!" -/
  | bladeAngleTooSmall (degrees : Fp K)
  /-- Message "requested absorber thickness is negative after accounting for glue and cladding" -/
  | negativeAbsorberThickness
  /-- Message "Some non-active layers are sensitive and others are not" -/
  | mixedSensitivity

/-- How a call of `buildWheel` ends. -/
inductive Outcome where
  /-- the function ran to its final `return` -/
  | completed
  /-- the early `return` after the blade-angle error -/
  | bladeAngleError
  /-- an exception left the function while the `nUnitCells` attribute was read -/
  | exception
deriving DecidableEq, Repr

/-- A `dd4hep::Volume` created by `buildWheel`: its name, its index in the vector that
holds it (0 for the two blade volumes), the radial range its shape is built for, and
whether the sensitive detector is set. -/
structure Volume (K : Type) where
  name : String
  index : Nat
  riLayer : K
  roLayer : K
  sensitive : Bool

/-- A reference to a volume by name and index; the envelope is `⟨"envelope", 0⟩`. -/
structure VolRef where
  name : String
  index : Nat
deriving DecidableEq, Repr

/-- A placed volume with the identifiers given to `addPhysVolID`, in order. -/
structure Placement where
  mother : VolRef
  daughter : VolRef
  ids : List (String × Int)
deriving DecidableEq, Repr

/-- A `dd4hep::DetElement` created with a name and an id. -/
structure DetElement where
  name : String
  id : Nat
deriving DecidableEq, Repr

/-- What a call of `buildWheel` leaves behind. -/
structure WheelResult (K : Type) where
  outcome : Outcome
  errors : List (ErrorMessage K)
  volumes : List (Volume K)
  placements : List Placement
  detElements : List DetElement
  /-- the value of `ECalEndCapElementCounter` after the call -/
  counter : Nat

/-- Source, lines 74-77: the blade angle after the optional per-wheel adjustment, as a
number of the field (the quotients are those of the field). -/
def bladeAngle {K : Type} [LinearOrderedField K] (tm : TMath K) (xml : WheelXml K)
    (ri delZ : K) : K :=
  if xml.decreaseAnglePerWheel then
    let tubeFracCovered := delZ / (2 * xml.grmin * tm.Tan xml.angle)
    tm.ATan (delZ / (2 * ri * tubeFracCovered))
  else
    xml.angle

/-- Source, lines 65 and 74-77: the variable `BladeAngle` after the optional per-wheel
adjustment, as a floating-point value:
`float tubeFracCovered = delZ / (2 * grmin * TMath::Tan(BladeAngle));`
`BladeAngle = TMath::ATan(delZ / (2 * ri * tubeFracCovered));` -/
def BladeAngle {K : Type} [LinearOrderedField K] (tm : TMath K) (xml : WheelXml K)
    (ri delZ : K) : Fp K :=
  if xml.decreaseAnglePerWheel then
    let tubeFracCovered :=
      Fp.div (Fp.ofField delZ)
        (Fp.mul (Fp.mul (Fp.ofField 2) (Fp.ofField xml.grmin))
          (Fp.tan tm (Fp.ofField xml.angle)))
    Fp.atan tm
      (Fp.div (Fp.ofField delZ)
        (Fp.mul (Fp.mul (Fp.ofField 2) (Fp.ofField ri)) tubeFracCovered))
  else
    Fp.ofField xml.angle

/-- Source, line 79: `TMath::Abs(TMath::Tan(BladeAngle)) < delZ / (2. * ri)`. -/
def bladeAngleTooSmall {K : Type} [LinearOrderedField K] (tm : TMath K) (BladeAngle : Fp K)
    (ri delZ : K) : Bool :=
  Fp.lt (Fp.abs (Fp.tan tm BladeAngle))
    (Fp.div (Fp.ofField delZ) (Fp.mul (Fp.ofField 2) (Fp.ofField ri)))

/-- Source, line 83: the angle that the error message names,
`TMath::ATan(delZ / (2. * ri)) * 180. / TMath::Pi()`. -/
def minimumAngleDegrees {K : Type} [LinearOrderedField K] (tm : TMath K) (ri delZ : K) :
    Fp K :=
  Fp.div
    (Fp.mul (Fp.atan tm (Fp.div (Fp.ofField delZ) (Fp.mul (Fp.ofField 2) (Fp.ofField ri))))
      (Fp.ofField 180))
    (Fp.ofField tm.Pi)

/-- The C function `strtok` with the delimiter string `" "`, on the text from the saved
position on: leading spaces are skipped; at the end of the text the result is `NULL`
(`none`); otherwise the token runs up to the next space, which is overwritten by the
terminator, and the saved position is right after it. -/
def strtok (text : List Char) : Option (List Char) × List Char :=
  match text.dropWhile (fun c => c == ' ') with
  | [] => (none, [])
  | c :: cs =>
    (some ((c :: cs).takeWhile (fun d => d != ' ')),
      ((c :: cs).dropWhile (fun d => d != ' ')).drop 1)

/-- Source, lines 108-110: `for (i = 0; i < iWheel; i++) nUnitCellsCStr = strtok(NULL, " ");`
acting on the pair of the current token pointer and the saved position. -/
def strtokLoop : Nat → Option (List Char) × List Char → Option (List Char) × List Char
  | 0, st => st
  | i + 1, st => strtokLoop i (strtok st.2)

/-- The C function `isspace` in the "C" locale. -/
def isspace (c : Char) : Bool :=
  c == ' ' || c == '\t' || c == '\n' || c == '\x0b' || c == '\x0c' || c == '\r'

/-- The value of a string of decimal digits. -/
def digitsValue (ds : List Char) : Nat :=
  ds.foldl (fun acc d => 10 * acc + (d.toNat - '0'.toNat)) 0

/-- The function `std::stoi` (base 10): leading white space is skipped, an optional sign
and the longest run of digits are read; with no digit the call throws
`std::invalid_argument`, with a value outside `int` it throws `std::out_of_range`
(`none` in both cases). -/
def stoi (str : List Char) : Option Int :=
  let body := str.dropWhile isspace
  let negative := body.head? == some '-'
  let unsignedPart := if body.head? == some '-' || body.head? == some '+' then body.drop 1 else body
  let ds := unsignedPart.takeWhile Char.isDigit
  if ds.isEmpty then none
  else
    let v : Int := if negative then -(digitsValue ds : Int) else (digitsValue ds : Int)
    if -(2 ^ 31) ≤ v ∧ v < 2 ^ 31 then some v else none

/-- Source, lines 105-110: the token pointer `nUnitCellsCStr` after the first `strtok`
call and, when `sameNUnitCells` is false, `iWheel` further calls. -/
def nUnitCellsCStr (sameNUnitCells : Bool) (attr : String) (iWheel : Nat) :
    Option (List Char) :=
  if !sameNUnitCells then (strtokLoop iWheel (strtok attr.toList)).1
  else (strtok attr.toList).1

/-- Source, lines 103-113: the number of unit cells.  It starts at 0 and is only assigned
when `sameNUnitCells` is false; the construction of a `std::string` from a null token
pointer and a failing `std::stoi` throw (`none`). -/
def nUnitCells (sameNUnitCells : Bool) (attr : String) (iWheel : Nat) : Option Int :=
  if !sameNUnitCells then
    match nUnitCellsCStr sameNUnitCells attr iWheel with
    | none => none
    | some nUnitCellsStr => stoi nUnitCellsStr
  else
    some 0

/-- Source, lines 169-183: the number of layers of the non-active volumes. -/
def numNonActiveLayers {K : Type} (xml : WheelXml K) (ECalEndcapNumCalibLayers : Nat) : Nat :=
  if xml.claddingSensitive && xml.glueSensitive && xml.absBladeSensitive &&
      xml.electrodeBladeSensitive then
    ECalEndcapNumCalibLayers
  else
    1

/-- Source, lines 172-183: the misconfiguration report. -/
def sensitivityErrors {K : Type} (xml : WheelXml K) : List (ErrorMessage K) :=
  if xml.claddingSensitive && xml.glueSensitive && xml.absBladeSensitive &&
      xml.electrodeBladeSensitive then []
  else if !xml.claddingSensitive && !xml.glueSensitive && !xml.absBladeSensitive &&
      !xml.electrodeBladeSensitive then []
  else [ErrorMessage.mixedSensitivity]

/-- Source, lines 188-230: the loop that creates the cladding, glue and absorber layer
volumes, `todo` iterations from `iLayer` on with the running inner radius `riLayer`. -/
def nonActiveLayerVolumes {K : Type} [LinearOrderedField K] (xml : WheelXml K)
    (delrNonActive : K) : Nat → Nat → K → List (Volume K)
  | 0, _, _ => []
  | todo + 1, iLayer, riLayer =>
    let roLayer := riLayer + delrNonActive
    [⟨"claddingLayer", iLayer, riLayer, roLayer, xml.claddingSensitive⟩,
      ⟨"glueLayer", iLayer, riLayer, roLayer, xml.glueSensitive⟩,
      ⟨"absBladeLayer", iLayer, riLayer, roLayer, xml.absBladeSensitive⟩] ++
      nonActiveLayerVolumes xml delrNonActive todo (iLayer + 1) roLayer

/-- Source, lines 236-285: the loop that creates the electrode and noble-liquid layer
volumes. -/
def activeLayerVolumes {K : Type} [LinearOrderedField K] (xml : WheelXml K)
    (delrActive : K) : Nat → Nat → K → List (Volume K)
  | 0, _, _ => []
  | todo + 1, iLayer, riLayer =>
    let roLayer := riLayer + delrActive
    [⟨"electrodeBladeLayer", iLayer, riLayer, roLayer, xml.electrodeBladeSensitive⟩,
      ⟨"LArTotalLayerVol", iLayer, riLayer, roLayer, xml.nobleLiquidSensitive⟩] ++
      activeLayerVolumes xml delrActive todo (iLayer + 1) roLayer

/-- The `unsigned` expression `iWheel * layersPerWheel + iLayer` passed as the `int`
argument of `addPhysVolID("layer", ..)`. -/
def layerId (iWheel layersPerWheel iLayer : Nat) : Int :=
  toInt32 ((iWheel * layersPerWheel + iLayer) % 2 ^ 32)

/-- Source, lines 301-315: the absorber layers are placed in the glue layers. -/
def absBladePlacements (iWheel numNonActiveLayers : Nat) : List Placement :=
  (List.range numNonActiveLayers).map fun (iLayer : Nat) =>
    { mother := ⟨"glueLayer", iLayer⟩
      daughter := ⟨"absBladeLayer", iLayer⟩
      ids := [("subtype", 0), ("layer", layerId iWheel numNonActiveLayers iLayer)] }

/-- Source, lines 320-332: the glue layers are placed in the cladding layers. -/
def gluePlacements (iWheel numNonActiveLayers : Nat) : List Placement :=
  (List.range numNonActiveLayers).map fun (iLayer : Nat) =>
    { mother := ⟨"claddingLayer", iLayer⟩
      daughter := ⟨"glueLayer", iLayer⟩
      ids := [("subtype", 1), ("layer", layerId iWheel numNonActiveLayers iLayer)] }

/-- Source, lines 339-353: the cladding layers are placed in the passive volume. -/
def claddingPlacements (iWheel numNonActiveLayers : Nat) : List Placement :=
  (List.range numNonActiveLayers).map fun (iLayer : Nat) =>
    { mother := ⟨"passive", 0⟩
      daughter := ⟨"claddingLayer", iLayer⟩
      ids := [("subtype", 2), ("layer", layerId iWheel numNonActiveLayers iLayer)] }

/-- Source, lines 358-367: the electrode blade layers (one per calibration layer) are
placed in the noble-liquid layers, with
`addPhysVolID("layer", iWheel * numNonActiveLayers + iLayer)`. -/
def electrodeBladePlacements (iWheel numNonActiveLayers ECalEndcapNumCalibLayers : Nat) :
    List Placement :=
  (List.range ECalEndcapNumCalibLayers).map fun (iLayer : Nat) =>
    { mother := ⟨"LArTotalLayerVol", iLayer⟩
      daughter := ⟨"electrodeBladeLayer", iLayer⟩
      ids := [("layer", layerId iWheel numNonActiveLayers iLayer)] }

/-- Source, lines 372-386: the noble-liquid layers are placed in the active volume, with
`addPhysVolID("layer", iWheel * ECalEndcapNumCalibLayers + iLayer)`. -/
def LArTotalPlacements (iWheel ECalEndcapNumCalibLayers : Nat) : List Placement :=
  (List.range ECalEndcapNumCalibLayers).map fun (iLayer : Nat) =>
    { mother := ⟨"active", 0⟩
      daughter := ⟨"LArTotalLayerVol", iLayer⟩
      ids := [("layer", layerId iWheel ECalEndcapNumCalibLayers iLayer)] }

/-- Source, lines 390-392 and 431: the module identifier of unit cell `iUnitCell`
(`int` arithmetic, division truncating towards zero). -/
def moduleId (nUnitCells nUnitCellsLeastCommonMultiple : Int) (iUnitCell : Nat) : Int :=
  let nUnitCellsToDraw := nUnitCells
  let modIndex := (iUnitCell : Int) - nUnitCellsToDraw.tdiv 2
  let modIndex := if modIndex < 0 then modIndex + nUnitCells else modIndex
  (modIndex * nUnitCellsLeastCommonMultiple).tdiv nUnitCells

/-- Source, lines 388-457: the loop over the unit cells, `todo` iterations from
`iUnitCell` on with the running value of `ECalEndCapElementCounter`; every iteration
places the passive and the active blade in the envelope and creates their detector
elements.  The result is the placements, the detector elements and the counter. -/
def unitCellLoop (nUnitCells nUnitCellsLeastCommonMultiple : Int) (iWheel : Nat) :
    Nat → Nat → Nat → List Placement × List DetElement × Nat
  | 0, _, counter => ([], [], counter)
  | todo + 1, iUnitCell, counter =>
    let module := moduleId nUnitCells nUnitCellsLeastCommonMultiple iUnitCell
    let passivePhysVol : Placement :=
      { mother := ⟨"envelope", 0⟩
        daughter := ⟨"passive", 0⟩
        ids := [("module", module), ("wheel", (iWheel : Int)), ("type", 1)] }
    let passiveDetElem : DetElement :=
      ⟨"passive_" ++ toString iUnitCell ++ "_" ++ toString iWheel, counter⟩
    let counter1 := (counter + 1) % 2 ^ 32
    let activePhysVol : Placement :=
      { mother := ⟨"envelope", 0⟩
        daughter := ⟨"active", 0⟩
        ids := [("module", module), ("wheel", (iWheel : Int)), ("type", 0)] }
    let activeDetElem : DetElement :=
      ⟨"active_" ++ toString iUnitCell ++ "_" ++ toString iWheel, counter1⟩
    let counter2 := (counter1 + 1) % 2 ^ 32
    let more := unitCellLoop nUnitCells nUnitCellsLeastCommonMultiple iWheel todo
      (iUnitCell + 1) counter2
    (passivePhysVol :: activePhysVol :: more.1, passiveDetElem :: activeDetElem :: more.2.1,
      more.2.2)

/-- Source, lines 137-138: the divisor `2 * nUnitCells` of the gap computation
`delrPhiGapOnly = leftoverS / (2 * nUnitCells)`. -/
def gapDivisor (nUnitCells : Int) : Int :=
  2 * nUnitCells

/-- Source, lines 52-460: `buildWheel`, called with the current values of the globals
`ECalEndcapNumCalibLayers` and `ECalEndCapElementCounter`. -/
def buildWheel {K : Type} [LinearOrderedField K] (tm : TMath K) (xml : WheelXml K)
    (ECalEndcapNumCalibLayers ECalEndCapElementCounter : Nat) (ri ro delZ : K)
    (iWheel : Nat) : WheelResult K :=
  if bladeAngleTooSmall tm (BladeAngle tm xml ri delZ) ri delZ then
    { outcome := Outcome.bladeAngleError
      errors := [ErrorMessage.bladeAngleTooSmall (minimumAngleDegrees tm ri delZ)]
      volumes := []
      placements := []
      detElements := []
      counter := ECalEndCapElementCounter }
  else
    let AbsThickMin := xml.absBladeThickness - (xml.glueThickness + xml.claddingThickness)
    let thicknessErrors : List (ErrorMessage K) :=
      if AbsThickMin < 0 then [ErrorMessage.negativeAbsorberThickness] else []
    match nUnitCells xml.sameNUnitCells xml.nUnitCells iWheel with
    | none =>
      { outcome := Outcome.exception
        errors := thicknessErrors
        volumes := []
        placements := []
        detElements := []
        counter := ECalEndCapElementCounter }
    | some n =>
      let nNonActive := numNonActiveLayers xml ECalEndcapNumCalibLayers
      let delrNonActive := (ro - ri) / (nNonActive : K)
      let delrActive := (ro - ri) / (ECalEndcapNumCalibLayers : K)
      let cells := unitCellLoop n xml.nUnitCellsLeastCommonMultiple iWheel n.toNat 0
        ECalEndCapElementCounter
      { outcome := Outcome.completed
        errors := thicknessErrors ++ sensitivityErrors xml
        volumes :=
          [⟨"passive", 0, ri, ro, false⟩, ⟨"active", 0, ri, ro, false⟩] ++
            nonActiveLayerVolumes xml delrNonActive nNonActive 0 ri ++
            activeLayerVolumes xml delrActive ECalEndcapNumCalibLayers 0 ri
        placements :=
          absBladePlacements iWheel nNonActive ++ gluePlacements iWheel nNonActive ++
            claddingPlacements iWheel nNonActive ++
            electrodeBladePlacements iWheel nNonActive ECalEndcapNumCalibLayers ++
            LArTotalPlacements iWheel ECalEndcapNumCalibLayers ++ cells.1
        detElements := cells.2.1
        counter := cells.2.2 }

/-- A sample description of the blades: angle `angle`, the `nUnitCells` attribute
`attr`, no non-active volume sensitive. -/
def sampleXml {K : Type} [LinearOrderedField K] (angle : K) (sameNUnitCells : Bool)
    (attr : String) : WheelXml K :=
  { angle := angle
    decreaseAnglePerWheel := false
    grmin := 1
    absBladeThickness := 3
    glueThickness := 1
    claddingThickness := 1
    sameNUnitCells := sameNUnitCells
    nUnitCells := attr
    nUnitCellsLeastCommonMultiple := 16
    claddingSensitive := false
    glueSensitive := false
    absBladeSensitive := false
    electrodeBladeSensitive := false
    nobleLiquidSensitive := true }

/-- The space-separated tokens of a text, in the words of the specification: the pieces
between spaces, without the empty ones. -/
def spaceSeparatedTokens (text : List Char) : List (List Char) :=
  (text.splitOn ' ').filter (fun t => !t.isEmpty)

end ECalEndcapTurbine

end K4geo

namespace K4geo

/-! ## Theorems: 32-bit legacy view -/

theorem toInt32_toCellID (v : Int) (h : isInt32 v) : toInt32 (toCellID v) = v := by
  unfold isInt32 at h
  unfold toInt32 toCellID
  split_ifs with hlt <;> omega

theorem toCellID_toInt32 (n : Nat) :
    toCellID (toInt32 n) =
      if n % 2 ^ 32 < 2 ^ 31 then n % 2 ^ 32 else n % 2 ^ 32 + (2 ^ 64 - 2 ^ 32) := by
  unfold toInt32 toCellID
  split_ifs with hlt
  · have : (((n % 2 ^ 32 : Nat) : Int) % 2 ^ 64).toNat = n % 2 ^ 32 := by
      omega
    exact this
  · omega

/-- C1: for every 32-bit signed integer `v`, widening it with `convertFirst32to64` and
truncating the result with `getFirst32bits` gives back `v`. -/
theorem getFirst32bits_convertFirst32to64 (v : Int) (hv : isInt32 v) :
    getFirst32bits (convertFirst32to64 v) = v :=
  toInt32_toCellID v hv

theorem getFirst32bits_convertFirst32to64_witness :
    isInt32 (-5) ∧ getFirst32bits (convertFirst32to64 (-5)) = -5 :=
  ⟨by decide, getFirst32bits_convertFirst32to64 (-5) (by decide)⟩

/-- C2 (counterexample): for the CellID `2^31` (only bit 31 set) the widened first half
is `0xFFFFFFFF80000000`: its high 32 bits are all one, so it is not `id mod 2^32`. -/
theorem widened_first_half_sign_extends :
    convertFirst32to64 (getFirst32bits 2147483648) = 18446744071562067968 ∧
      convertFirst32to64 (getFirst32bits 2147483648) ≠ 2147483648 % 2 ^ 32 := by
  have h : convertFirst32to64 (getFirst32bits 2147483648) = 18446744071562067968 := by
    unfold convertFirst32to64 getFirst32bits
    rw [toCellID_toInt32]
    norm_num
  refine ⟨h, ?_⟩
  rw [h]
  norm_num

/-- C2 (amended): for every CellID `id`, `convertFirst32to64 (getFirst32bits id)` has the
same low 32 bits as `id`, and its high 32 bits are all copies of bit 31 of `id` (sign
extension): all zero when bit 31 of `id` is clear, all one when it is set. -/
theorem convertFirst32to64_getFirst32bits (id : Nat) :
    convertFirst32to64 (getFirst32bits id) % 2 ^ 32 = id % 2 ^ 32 ∧
      convertFirst32to64 (getFirst32bits id) / 2 ^ 32 =
        if id % 2 ^ 32 < 2 ^ 31 then 0 else 2 ^ 32 - 1 := by
  unfold convertFirst32to64 getFirst32bits
  rw [toCellID_toInt32]
  split_ifs with hlt <;> omega

theorem convertLast32to64_getLast32bits (id : Nat) (hid : id < 2 ^ 64) :
    convertLast32to64 (getLast32bits id) = 2 ^ 32 * (id / 2 ^ 32) := by
  unfold convertLast32to64 getLast32bits
  rw [toCellID_toInt32]
  split_ifs with hlt <;> omega

/-- C3 (counterexample): for the CellID `2^31` the bitwise OR of the two widened halves
is `0xFFFFFFFF80000000`, which differs from `id` in all of the high 32 bits. -/
theorem combineHalves_not_identity :
    combineHalves (convertFirst32to64 (getFirst32bits 2147483648))
        (convertLast32to64 (getLast32bits 2147483648)) = 18446744071562067968 ∧
      combineHalves (convertFirst32to64 (getFirst32bits 2147483648))
        (convertLast32to64 (getLast32bits 2147483648)) ≠ 2147483648 := by
  have h1 : convertFirst32to64 (getFirst32bits 2147483648) = 18446744071562067968 := by
    unfold convertFirst32to64 getFirst32bits
    rw [toCellID_toInt32]
    norm_num
  have h2 : convertLast32to64 (getLast32bits 2147483648) = 0 := by
    rw [convertLast32to64_getLast32bits _ (by norm_num)]
    norm_num
  rw [h1, h2]
  unfold combineHalves
  constructor
  · simp
  · simp

theorem or_high_ones (b h : Nat) (hb : b < 2 ^ 32) (hh : h < 2 ^ 32) :
    (b + (2 ^ 64 - 2 ^ 32)) ||| (2 ^ 32 * h) = b + (2 ^ 64 - 2 ^ 32) := by
  have e1 : b + (2 ^ 64 - 2 ^ 32) = (2 ^ 32 - 1) <<< 32 ||| b := by
    rw [Nat.shiftLeft_eq, Nat.mul_comm, ← Nat.mul_add_lt_is_or hb]
    norm_num
    omega
  have e2 : 2 ^ 32 * h = h <<< 32 := by
    rw [Nat.shiftLeft_eq, Nat.mul_comm]
  rw [e1, e2]
  apply Nat.eq_of_testBit_eq
  intro i
  simp only [Nat.testBit_or, Nat.testBit_shiftLeft, Nat.testBit_two_pow_sub_one]
  by_cases hi : i ≥ 32
  · by_cases hi2 : i - 32 < 32
    · simp [hi, hi2]
    · have hpow : 2 ^ 32 ≤ 2 ^ (i - 32) := Nat.pow_le_pow_right (by norm_num) (by omega)
      have := Nat.testBit_lt_two_pow (lt_of_lt_of_le hh hpow)
      simp [this]
  · simp [hi]

/-- C3 (amended): for every 64-bit CellID `id`, the bitwise OR of
`convertFirst32to64 (getFirst32bits id)` and `convertLast32to64 (getLast32bits id)`
agrees with `id` on the low 32 bits; its high 32 bits are those of `id` when bit 31 of
`id` is clear, so that it is `id` itself, and they are all one when bit 31 is set. -/
theorem combineHalves_first_last (id : Nat) (hid : id < 2 ^ 64) :
    combineHalves (convertFirst32to64 (getFirst32bits id))
        (convertLast32to64 (getLast32bits id)) % 2 ^ 32 = id % 2 ^ 32 ∧
      combineHalves (convertFirst32to64 (getFirst32bits id))
        (convertLast32to64 (getLast32bits id)) / 2 ^ 32 =
          (if id % 2 ^ 32 < 2 ^ 31 then id / 2 ^ 32 else 2 ^ 32 - 1) ∧
      (id % 2 ^ 32 < 2 ^ 31 →
        combineHalves (convertFirst32to64 (getFirst32bits id))
          (convertLast32to64 (getLast32bits id)) = id) := by
  have hfirst : convertFirst32to64 (getFirst32bits id) =
      if id % 2 ^ 32 < 2 ^ 31 then id % 2 ^ 32 else id % 2 ^ 32 + (2 ^ 64 - 2 ^ 32) := by
    unfold convertFirst32to64 getFirst32bits
    exact toCellID_toInt32 id
  rw [hfirst, convertLast32to64_getLast32bits id hid]
  unfold combineHalves
  have hb : id % 2 ^ 32 < 2 ^ 32 := Nat.mod_lt _ (by norm_num)
  have hh : id / 2 ^ 32 < 2 ^ 32 := by omega
  by_cases hbit : id % 2 ^ 32 < 2 ^ 31
  · have hor : id % 2 ^ 32 ||| 2 ^ 32 * (id / 2 ^ 32) = id := by
      rw [Nat.or_comm, ← Nat.mul_add_lt_is_or hb]
      exact Nat.div_add_mod id (2 ^ 32)
    rw [if_pos hbit, if_pos hbit, hor]
    exact ⟨rfl, rfl, fun _ => rfl⟩
  · rw [if_neg hbit, if_neg hbit, or_high_ones _ _ hb hh]
    refine ⟨by omega, by omega, fun h => absurd h hbit⟩

theorem combineHalves_first_last_witness :
    (21474836487 : Nat) < 2 ^ 64 ∧
      combineHalves (convertFirst32to64 (getFirst32bits 21474836487))
        (convertLast32to64 (getLast32bits 21474836487)) % 2 ^ 32 = 21474836487 % 2 ^ 32 ∧
      combineHalves (convertFirst32to64 (getFirst32bits 21474836487))
        (convertLast32to64 (getLast32bits 21474836487)) / 2 ^ 32 =
          (if 21474836487 % 2 ^ 32 < 2 ^ 31 then 21474836487 / 2 ^ 32 else 2 ^ 32 - 1) ∧
      (21474836487 % 2 ^ 32 < 2 ^ 31 →
        combineHalves (convertFirst32to64 (getFirst32bits 21474836487))
          (convertLast32to64 (getLast32bits 21474836487)) = 21474836487) :=
  ⟨by decide, combineHalves_first_last 21474836487 (by decide)⟩

/-! ## Theorems: identifier codec -/

theorem BitFieldElement.disjoint_symm {f g : BitFieldElement} (h : f.disjoint g) :
    g.disjoint f := by
  unfold BitFieldElement.disjoint at *
  omega

theorem BitFieldElement.value_or (f : BitFieldElement) (a b : Nat) :
    f.value (a ||| b) = f.value a ||| f.value b := by
  unfold BitFieldElement.value
  apply Nat.eq_of_testBit_eq
  intro i
  simp only [Nat.testBit_mod_two_pow, Nat.testBit_shiftRight, Nat.testBit_or]
  cases decide (i < f.width) <;> simp

theorem BitFieldElement.put_lt (g : BitFieldElement) (v : Int) :
    (v % 2 ^ g.width).toNat < 2 ^ g.width := by
  have h1 : v % 2 ^ g.width < 2 ^ g.width := Int.emod_lt_of_pos _ (by positivity)
  have h0 : 0 ≤ v % 2 ^ g.width := Int.emod_nonneg _ (by positivity)
  zify
  rw [Int.toNat_of_nonneg h0]
  exact h1

theorem BitFieldElement.value_put_self (f : BitFieldElement) (v : Int) :
    f.value (f.put v) = (v % 2 ^ f.width).toNat := by
  unfold BitFieldElement.value BitFieldElement.put
  rw [Nat.shiftLeft_shiftRight, Nat.mod_eq_of_lt (BitFieldElement.put_lt f v)]

theorem BitFieldElement.value_put_of_holds (f : BitFieldElement) (v : Int) (h : f.holds v) :
    (f.value (f.put v) : Int) = v := by
  rw [BitFieldElement.value_put_self, Int.emod_eq_of_lt h.1 h.2]
  exact Int.toNat_of_nonneg h.1

theorem BitFieldElement.value_put_disjoint (f g : BitFieldElement) (v : Int)
    (h : f.disjoint g) : f.value (g.put v) = 0 := by
  unfold BitFieldElement.value BitFieldElement.put
  apply Nat.eq_of_testBit_eq
  intro i
  have hlt := BitFieldElement.put_lt g v
  simp only [Nat.testBit_mod_two_pow, Nat.testBit_shiftRight, Nat.testBit_shiftLeft,
    Nat.zero_testBit]
  by_cases hi : i < f.width
  · by_cases hge : f.offset + i ≥ g.offset
    · have hpow : 2 ^ g.width ≤ 2 ^ (f.offset + i - g.offset) := by
        apply Nat.pow_le_pow_right (by norm_num)
        rcases h with h | h <;> omega
      have := Nat.testBit_lt_two_pow (lt_of_lt_of_le hlt hpow)
      simp [this]
    · simp [hge]
  · simp [hi]

theorem BitFieldElement.value_put_flag (f : BitFieldElement) (hw : 0 < f.width) (b : Bool) :
    decide (f.value (f.put (if b then 1 else 0)) = 1) = b := by
  have h2 : (2 : Int) ≤ 2 ^ f.width := by
    have : (2 : Int) ^ 1 ≤ 2 ^ f.width := pow_le_pow_right₀ (by norm_num) hw
    simpa using this
  rw [BitFieldElement.value_put_self]
  cases b
  · simp
  · have h : (1 : Int) % 2 ^ f.width = 1 := Int.emod_eq_of_lt (by norm_num) (by omega)
    simp [h]

/-- The value that each sub-field of a well-formed schema holds after `setCellID`. -/
theorem value_setCellID (S : Schema) (cerenkovOf : Bool → Int → Int → Int → Int → Int → Bool)
    (isRHS : Bool) (sys eta phi lx ly : Int) (hS : S.WellFormed) :
    S.assembly.value (setCellID S cerenkovOf isRHS sys eta phi lx ly) =
        S.assembly.value (S.assembly.put (if isRHS then 1 else 0)) ∧
      S.system.value (setCellID S cerenkovOf isRHS sys eta phi lx ly) =
        S.system.value (S.system.put sys) ∧
      S.numEta.value (setCellID S cerenkovOf isRHS sys eta phi lx ly) =
        S.numEta.value (S.numEta.put eta) ∧
      S.numPhi.value (setCellID S cerenkovOf isRHS sys eta phi lx ly) =
        S.numPhi.value (S.numPhi.put phi) ∧
      S.x.value (setCellID S cerenkovOf isRHS sys eta phi lx ly) =
        S.x.value (S.x.put lx) ∧
      S.y.value (setCellID S cerenkovOf isRHS sys eta phi lx ly) =
        S.y.value (S.y.put ly) ∧
      S.isCerenkov.value (setCellID S cerenkovOf isRHS sys eta phi lx ly) =
        S.isCerenkov.value
          (S.isCerenkov.put (if cerenkovOf isRHS sys eta phi lx ly then 1 else 0)) := by
  obtain ⟨hp, -, -, -⟩ := hS
  simp only [Schema.fields, List.pairwise_cons, List.mem_cons, List.mem_singleton,
    forall_eq_or_imp, forall_eq, List.not_mem_nil, IsEmpty.forall_iff, implies_true,
    List.Pairwise.nil, and_true] at hp
  obtain ⟨⟨a1, a2, a3, a4, a5, a6⟩, ⟨b1, b2, b3, b4, b5⟩, ⟨c1, c2, c3, c4⟩, ⟨d1, d2, d3⟩,
    ⟨e1, e2⟩, f1⟩ := hp
  have a1s := BitFieldElement.disjoint_symm a1
  have a2s := BitFieldElement.disjoint_symm a2
  have a3s := BitFieldElement.disjoint_symm a3
  have a4s := BitFieldElement.disjoint_symm a4
  have a5s := BitFieldElement.disjoint_symm a5
  have a6s := BitFieldElement.disjoint_symm a6
  have b1s := BitFieldElement.disjoint_symm b1
  have b2s := BitFieldElement.disjoint_symm b2
  have b3s := BitFieldElement.disjoint_symm b3
  have b4s := BitFieldElement.disjoint_symm b4
  have b5s := BitFieldElement.disjoint_symm b5
  have c1s := BitFieldElement.disjoint_symm c1
  have c2s := BitFieldElement.disjoint_symm c2
  have c3s := BitFieldElement.disjoint_symm c3
  have c4s := BitFieldElement.disjoint_symm c4
  have d1s := BitFieldElement.disjoint_symm d1
  have d2s := BitFieldElement.disjoint_symm d2
  have d3s := BitFieldElement.disjoint_symm d3
  have e1s := BitFieldElement.disjoint_symm e1
  have e2s := BitFieldElement.disjoint_symm e2
  have f1s := BitFieldElement.disjoint_symm f1
  unfold setCellID
  simp only [BitFieldElement.value_or, BitFieldElement.value_put_disjoint, Nat.zero_or,
    Nat.or_zero, a1, a2, a3, a4, a5, a6, b1, b2, b3, b4, b5, c1, c2, c3, c4, d1, d2, d3, e1, e2,
    f1, a1s, a2s, a3s, a4s, a5s, a6s, b1s, b2s, b3s, b4s, b5s, c1s, c2s, c3s, c4s, d1s, d2s,
    d3s, e1s, e2s, f1s, and_self]

/-- C4 (counterexample): no bit layout and no six-argument `setCellID` round-trips both
tuples `(RHS, 1, 3, 7, 2, 4, true)` and `(RHS, 1, 3, 7, 2, 4, false)`: they differ only
in the isCerenkov component, which is not an argument, so both are encoded to the same
identifier and at most one of them is decoded back. -/
theorem setCellID_isCerenkov_not_roundtrip :
    ¬ ∃ (S : Schema) (cerenkovOf : Bool → Int → Int → Int → Int → Int → Bool),
        decode S (setCellID S cerenkovOf true 1 3 7 2 4) = ⟨true, 1, 3, 7, 2, 4, true⟩ ∧
          decode S (setCellID S cerenkovOf true 1 3 7 2 4) = ⟨true, 1, 3, 7, 2, 4, false⟩ := by
  rintro ⟨S, cerenkovOf, h1, h2⟩
  rw [h1] at h2
  exact absurd (congrArg CellTuple.isCerenkov h2) (by decide)

theorem BitFieldElement.put_lt_two_pow (f : BitFieldElement) (v : Int)
    (h : f.offset + f.width ≤ 64) : f.put v < 2 ^ 64 := by
  unfold BitFieldElement.put
  rw [Nat.shiftLeft_eq]
  calc (v % 2 ^ f.width).toNat * 2 ^ f.offset
      < 2 ^ f.width * 2 ^ f.offset :=
        Nat.mul_lt_mul_of_pos_right (BitFieldElement.put_lt f v) (by positivity)
    _ = 2 ^ (f.width + f.offset) := (pow_add 2 f.width f.offset).symm
    _ ≤ 2 ^ 64 := Nat.pow_le_pow_right (by norm_num) (by omega)

theorem setCellID_lt (S : Schema) (cerenkovOf : Bool → Int → Int → Int → Int → Int → Bool)
    (isRHS : Bool) (sys eta phi lx ly : Int) (hS : S.WellFormed) :
    setCellID S cerenkovOf isRHS sys eta phi lx ly < 2 ^ 64 := by
  obtain ⟨-, hb, -, -⟩ := hS
  simp only [Schema.fields, List.mem_cons, List.mem_singleton, forall_eq_or_imp, forall_eq,
    List.not_mem_nil, IsEmpty.forall_iff, implies_true, and_true] at hb
  obtain ⟨b1, b2, b3, b4, b5, b6, b7⟩ := hb
  unfold setCellID
  exact Nat.or_lt_two_pow (Nat.or_lt_two_pow (Nat.or_lt_two_pow (Nat.or_lt_two_pow
    (Nat.or_lt_two_pow (Nat.or_lt_two_pow (BitFieldElement.put_lt_two_pow _ _ b1)
      (BitFieldElement.put_lt_two_pow _ _ b2)) (BitFieldElement.put_lt_two_pow _ _ b3))
    (BitFieldElement.put_lt_two_pow _ _ b4)) (BitFieldElement.put_lt_two_pow _ _ b5))
    (BitFieldElement.put_lt_two_pow _ _ b6)) (BitFieldElement.put_lt_two_pow _ _ b7)

/-- C4 (amended): for every well-formed bit layout and every valid tuple `t`, the
identifier built by `setCellID` from the six components `isRHS, systemId, numEta,
numPhi, x, y` of `t` is a 64-bit value that decodes through `IsRHS`, the system tag,
`numEta`, `numPhi`, `x` and `y` to exactly these six components; `IsCerenkov` decodes to
the flag that `setCellID` derives from its six arguments, whatever the isCerenkov
component of `t`. -/
theorem decode_setCellID (S : Schema)
    (cerenkovOf : Bool → Int → Int → Int → Int → Int → Bool) (t : CellTuple)
    (hS : S.WellFormed) (ht : t.Valid S) :
    setCellID S cerenkovOf t.isRHS t.systemId t.numEta t.numPhi t.x t.y < 2 ^ 64 ∧
      decode S (setCellID S cerenkovOf t.isRHS t.systemId t.numEta t.numPhi t.x t.y) =
        { t with isCerenkov := cerenkovOf t.isRHS t.systemId t.numEta t.numPhi t.x t.y } := by
  refine ⟨setCellID_lt S cerenkovOf _ _ _ _ _ _ hS, ?_⟩
  obtain ⟨v1, v2, v3, v4, v5, v6, v7⟩ :=
    value_setCellID S cerenkovOf t.isRHS t.systemId t.numEta t.numPhi t.x t.y hS
  obtain ⟨hsys, heta, hphi, hx, hy⟩ := ht
  obtain ⟨-, -, hwa, hwc⟩ := hS
  unfold decode IsRHS systemId numEta numPhi x y IsCerenkov
  rw [v1, v2, v3, v4, v5, v6, v7, BitFieldElement.value_put_flag _ hwa,
    BitFieldElement.value_put_flag _ hwc, BitFieldElement.value_put_of_holds _ _ hsys,
    BitFieldElement.value_put_of_holds _ _ heta, BitFieldElement.value_put_of_holds _ _ hphi,
    BitFieldElement.value_put_of_holds _ _ hx, BitFieldElement.value_put_of_holds _ _ hy]

theorem decode_setCellID_witness :
    exampleSchema.WellFormed ∧ CellTuple.Valid exampleSchema ⟨true, 1, 3, 7, 2, 4, true⟩ ∧
      setCellID exampleSchema exampleCerenkovOf true 1 3 7 2 4 < 2 ^ 64 ∧
      decode exampleSchema (setCellID exampleSchema exampleCerenkovOf true 1 3 7 2 4) =
        ⟨true, 1, 3, 7, 2, 4, false⟩ :=
  ⟨by decide, by decide,
    decode_setCellID exampleSchema exampleCerenkovOf ⟨true, 1, 3, 7, 2, 4, true⟩
      (by decide) (by decide)⟩

/-! ## Theorems: configuration -/

/-- C5: for each of the seven configurable field names and every string `v`, the getter
applied after the matching setter returns `v`. -/
theorem fieldName_setFieldName (s : GridDRcalo) (v : String) :
    (s.setFieldNameAssembly v).fieldNameAssembly = v ∧
      (s.setFieldNameNumEta v).fieldNameNumEta = v ∧
      (s.setFieldNameNumPhi v).fieldNameNumPhi = v ∧
      (s.setFieldNameX v).fieldNameX = v ∧
      (s.setFieldNameY v).fieldNameY = v ∧
      (s.setFieldNameIsCerenkov v).fieldNameIsCerenkov = v ∧
      (s.setFieldNameModule v).fieldNameModule = v :=
  ⟨rfl, rfl, rfl, rfl, rfl, rfl, rfl⟩

/-- C6: every configuration setter changes only its own data member (`setGridSize` and
`setSipmSize` store their argument in `fGridSize` and `fSipmSize`): each of the seven
`setFieldName*` setters leaves the other six field names, `fGridSize` and `fSipmSize`
(and the two parameter pointers) unchanged; `setGridSize` changes only `fGridSize` and
`setSipmSize` changes only `fSipmSize`. -/
theorem setter_frame (s : GridDRcalo) (v : String) (g p : ℚ) :
    (s.setGridSize g).fGridSize = g ∧ (s.setSipmSize p).fSipmSize = p ∧
      ((s.setFieldNameAssembly v).fNumEtaId = s.fNumEtaId
        ∧ (s.setFieldNameAssembly v).fNumPhiId = s.fNumPhiId
        ∧ (s.setFieldNameAssembly v).fXId = s.fXId ∧ (s.setFieldNameAssembly v).fYId = s.fYId
        ∧ (s.setFieldNameAssembly v).fIsCerenkovId = s.fIsCerenkovId
        ∧ (s.setFieldNameAssembly v).fModule = s.fModule
        ∧ (s.setFieldNameAssembly v).fGridSize = s.fGridSize
        ∧ (s.setFieldNameAssembly v).fSipmSize = s.fSipmSize
        ∧ (s.setFieldNameAssembly v).fParamBarrel = s.fParamBarrel
        ∧ (s.setFieldNameAssembly v).fParamEndcap = s.fParamEndcap) ∧
      ((s.setFieldNameNumEta v).fAssemblyId = s.fAssemblyId
        ∧ (s.setFieldNameNumEta v).fNumPhiId = s.fNumPhiId
        ∧ (s.setFieldNameNumEta v).fXId = s.fXId ∧ (s.setFieldNameNumEta v).fYId = s.fYId
        ∧ (s.setFieldNameNumEta v).fIsCerenkovId = s.fIsCerenkovId
        ∧ (s.setFieldNameNumEta v).fModule = s.fModule
        ∧ (s.setFieldNameNumEta v).fGridSize = s.fGridSize
        ∧ (s.setFieldNameNumEta v).fSipmSize = s.fSipmSize
        ∧ (s.setFieldNameNumEta v).fParamBarrel = s.fParamBarrel
        ∧ (s.setFieldNameNumEta v).fParamEndcap = s.fParamEndcap) ∧
      ((s.setFieldNameNumPhi v).fAssemblyId = s.fAssemblyId
        ∧ (s.setFieldNameNumPhi v).fNumEtaId = s.fNumEtaId
        ∧ (s.setFieldNameNumPhi v).fXId = s.fXId ∧ (s.setFieldNameNumPhi v).fYId = s.fYId
        ∧ (s.setFieldNameNumPhi v).fIsCerenkovId = s.fIsCerenkovId
        ∧ (s.setFieldNameNumPhi v).fModule = s.fModule
        ∧ (s.setFieldNameNumPhi v).fGridSize = s.fGridSize
        ∧ (s.setFieldNameNumPhi v).fSipmSize = s.fSipmSize
        ∧ (s.setFieldNameNumPhi v).fParamBarrel = s.fParamBarrel
        ∧ (s.setFieldNameNumPhi v).fParamEndcap = s.fParamEndcap) ∧
      ((s.setFieldNameX v).fAssemblyId = s.fAssemblyId
        ∧ (s.setFieldNameX v).fNumEtaId = s.fNumEtaId
        ∧ (s.setFieldNameX v).fNumPhiId = s.fNumPhiId ∧ (s.setFieldNameX v).fYId = s.fYId
        ∧ (s.setFieldNameX v).fIsCerenkovId = s.fIsCerenkovId
        ∧ (s.setFieldNameX v).fModule = s.fModule ∧ (s.setFieldNameX v).fGridSize = s.fGridSize
        ∧ (s.setFieldNameX v).fSipmSize = s.fSipmSize
        ∧ (s.setFieldNameX v).fParamBarrel = s.fParamBarrel
        ∧ (s.setFieldNameX v).fParamEndcap = s.fParamEndcap) ∧
      ((s.setFieldNameY v).fAssemblyId = s.fAssemblyId
        ∧ (s.setFieldNameY v).fNumEtaId = s.fNumEtaId
        ∧ (s.setFieldNameY v).fNumPhiId = s.fNumPhiId ∧ (s.setFieldNameY v).fXId = s.fXId
        ∧ (s.setFieldNameY v).fIsCerenkovId = s.fIsCerenkovId
        ∧ (s.setFieldNameY v).fModule = s.fModule ∧ (s.setFieldNameY v).fGridSize = s.fGridSize
        ∧ (s.setFieldNameY v).fSipmSize = s.fSipmSize
        ∧ (s.setFieldNameY v).fParamBarrel = s.fParamBarrel
        ∧ (s.setFieldNameY v).fParamEndcap = s.fParamEndcap) ∧
      ((s.setFieldNameIsCerenkov v).fAssemblyId = s.fAssemblyId
        ∧ (s.setFieldNameIsCerenkov v).fNumEtaId = s.fNumEtaId
        ∧ (s.setFieldNameIsCerenkov v).fNumPhiId = s.fNumPhiId
        ∧ (s.setFieldNameIsCerenkov v).fXId = s.fXId ∧ (s.setFieldNameIsCerenkov v).fYId = s.fYId
        ∧ (s.setFieldNameIsCerenkov v).fModule = s.fModule
        ∧ (s.setFieldNameIsCerenkov v).fGridSize = s.fGridSize
        ∧ (s.setFieldNameIsCerenkov v).fSipmSize = s.fSipmSize
        ∧ (s.setFieldNameIsCerenkov v).fParamBarrel = s.fParamBarrel
        ∧ (s.setFieldNameIsCerenkov v).fParamEndcap = s.fParamEndcap) ∧
      ((s.setFieldNameModule v).fAssemblyId = s.fAssemblyId
        ∧ (s.setFieldNameModule v).fNumEtaId = s.fNumEtaId
        ∧ (s.setFieldNameModule v).fNumPhiId = s.fNumPhiId
        ∧ (s.setFieldNameModule v).fXId = s.fXId ∧ (s.setFieldNameModule v).fYId = s.fYId
        ∧ (s.setFieldNameModule v).fIsCerenkovId = s.fIsCerenkovId
        ∧ (s.setFieldNameModule v).fGridSize = s.fGridSize
        ∧ (s.setFieldNameModule v).fSipmSize = s.fSipmSize
        ∧ (s.setFieldNameModule v).fParamBarrel = s.fParamBarrel
        ∧ (s.setFieldNameModule v).fParamEndcap = s.fParamEndcap) ∧
      ((s.setGridSize g).fAssemblyId = s.fAssemblyId ∧ (s.setGridSize g).fNumEtaId = s.fNumEtaId
        ∧ (s.setGridSize g).fNumPhiId = s.fNumPhiId ∧ (s.setGridSize g).fXId = s.fXId
        ∧ (s.setGridSize g).fYId = s.fYId ∧ (s.setGridSize g).fIsCerenkovId = s.fIsCerenkovId
        ∧ (s.setGridSize g).fModule = s.fModule ∧ (s.setGridSize g).fSipmSize = s.fSipmSize
        ∧ (s.setGridSize g).fParamBarrel = s.fParamBarrel
        ∧ (s.setGridSize g).fParamEndcap = s.fParamEndcap) ∧
      ((s.setSipmSize p).fAssemblyId = s.fAssemblyId ∧ (s.setSipmSize p).fNumEtaId = s.fNumEtaId
        ∧ (s.setSipmSize p).fNumPhiId = s.fNumPhiId ∧ (s.setSipmSize p).fXId = s.fXId
        ∧ (s.setSipmSize p).fYId = s.fYId ∧ (s.setSipmSize p).fIsCerenkovId = s.fIsCerenkovId
        ∧ (s.setSipmSize p).fModule = s.fModule ∧ (s.setSipmSize p).fGridSize = s.fGridSize
        ∧ (s.setSipmSize p).fParamBarrel = s.fParamBarrel
        ∧ (s.setSipmSize p).fParamEndcap = s.fParamEndcap) :=
  ⟨rfl, rfl, ⟨rfl, rfl, rfl, rfl, rfl, rfl, rfl, rfl, rfl, rfl⟩,
    ⟨rfl, rfl, rfl, rfl, rfl, rfl, rfl, rfl, rfl, rfl⟩,
    ⟨rfl, rfl, rfl, rfl, rfl, rfl, rfl, rfl, rfl, rfl⟩,
    ⟨rfl, rfl, rfl, rfl, rfl, rfl, rfl, rfl, rfl, rfl⟩,
    ⟨rfl, rfl, rfl, rfl, rfl, rfl, rfl, rfl, rfl, rfl⟩,
    ⟨rfl, rfl, rfl, rfl, rfl, rfl, rfl, rfl, rfl, rfl⟩,
    ⟨rfl, rfl, rfl, rfl, rfl, rfl, rfl, rfl, rfl, rfl⟩,
    ⟨rfl, rfl, rfl, rfl, rfl, rfl, rfl, rfl, rfl, rfl⟩,
    ⟨rfl, rfl, rfl, rfl, rfl, rfl, rfl, rfl, rfl, rfl⟩⟩

/-! ## Theorems: 32-bit accessor overloads -/

theorem getFirst32bits_congr (id1 id2 : Nat) (h : id1 % 2 ^ 32 = id2 % 2 ^ 32) :
    getFirst32bits id1 = getFirst32bits id2 := by
  unfold getFirst32bits toInt32
  rw [h]

/-- C14: the 32-bit overloads read one half each.  For every 32-bit value `v`, `numEta`,
`numPhi`, `numX` and `numY` of `v` are the 64-bit accessors applied to
`convertFirst32to64 v`, and `x`, `y`, `IsCerenkov`, `IsTower` and `IsSiPM` of `v` are the
64-bit accessors applied to `convertLast32to64 v`.  Hence for two 64-bit identifiers with
equal low 32 bits the four tower accessors applied to `getFirst32bits` agree, whatever
the high halves hold. -/
theorem legacy32_accessors (acc : Accessors64) :
    (∀ v : Int,
      Legacy32.numEta acc v = acc.numEta (convertFirst32to64 v) ∧
      Legacy32.numPhi acc v = acc.numPhi (convertFirst32to64 v) ∧
      Legacy32.numX acc v = acc.numX (convertFirst32to64 v) ∧
      Legacy32.numY acc v = acc.numY (convertFirst32to64 v) ∧
      Legacy32.x acc v = acc.x (convertLast32to64 v) ∧
      Legacy32.y acc v = acc.y (convertLast32to64 v) ∧
      Legacy32.IsCerenkov acc v = acc.IsCerenkov (convertLast32to64 v) ∧
      Legacy32.IsTower acc v = acc.IsTower (convertLast32to64 v) ∧
      Legacy32.IsSiPM acc v = acc.IsSiPM (convertLast32to64 v)) ∧
      (∀ id1 id2 : Nat, id1 % 2 ^ 32 = id2 % 2 ^ 32 →
        Legacy32.numEta acc (getFirst32bits id1) = Legacy32.numEta acc (getFirst32bits id2) ∧
        Legacy32.numPhi acc (getFirst32bits id1) = Legacy32.numPhi acc (getFirst32bits id2) ∧
        Legacy32.numX acc (getFirst32bits id1) = Legacy32.numX acc (getFirst32bits id2) ∧
        Legacy32.numY acc (getFirst32bits id1) = Legacy32.numY acc (getFirst32bits id2)) := by
  refine ⟨fun v => ⟨rfl, rfl, rfl, rfl, rfl, rfl, rfl, rfl, rfl⟩, ?_⟩
  intro id1 id2 h
  rw [getFirst32bits_congr id1 id2 h]
  exact ⟨rfl, rfl, rfl, rfl⟩

/-! ## Theorems: double precision arithmetic -/

namespace Binary64

theorem roundHalfEven_intCast (n : ℤ) : roundHalfEven (n : ℚ) = n := by
  simp [roundHalfEven]

theorem roundHalfEven_pos_iff (q : ℚ) : 0 < roundHalfEven q ↔ 1 / 2 < q := by
  have hf1 := Int.floor_le q
  have hf2 := Int.lt_floor_add_one q
  unfold roundHalfEven
  constructor
  · intro h
    by_contra hq
    push_neg at hq
    have hfl : Int.floor q ≤ 0 := by
      have : (Int.floor q : ℚ) < 1 := by linarith
      have : Int.floor q < 1 := by exact_mod_cast this
      omega
    split_ifs at h with h1 h2 h3
    · omega
    · have h0 : Int.floor q = 0 := by omega
      rw [h0] at h2
      simp at h2
      linarith
    · omega
    · have h0 : Int.floor q = 0 := by omega
      rw [h0] at h3
      simp at h3
  · intro h
    have hfl : 0 ≤ Int.floor q := by
      have : (0 : ℚ) < (Int.floor q : ℚ) + 1 := by linarith
      have : 0 < Int.floor q + 1 := by exact_mod_cast this
      omega
    split_ifs with h1 h2 h3
    · have : (0 : ℚ) < Int.floor q := by linarith
      exact_mod_cast this
    · omega
    · by_contra hn
      have h0 : Int.floor q = 0 := by omega
      rw [h0] at h1 h2
      simp at h1 h2
      linarith
    · omega

theorem roundHalfEven_neg_iff (q : ℚ) : roundHalfEven q < 0 ↔ q < -(1 / 2) := by
  have hf1 := Int.floor_le q
  have hf2 := Int.lt_floor_add_one q
  unfold roundHalfEven
  constructor
  · intro h
    by_contra hq
    push_neg at hq
    have hfl : -1 ≤ Int.floor q := by
      have : (-1 : ℚ) < (Int.floor q : ℚ) + 1 := by linarith
      have : -1 < Int.floor q + 1 := by exact_mod_cast this
      omega
    split_ifs at h with h1 h2 h3
    · have h0 : Int.floor q = -1 := by omega
      rw [h0] at h1
      push_cast at h1
      linarith
    · omega
    · omega
    · omega
  · intro h
    have hfl : Int.floor q ≤ -1 := by
      have : (Int.floor q : ℚ) < 0 := by linarith
      have : Int.floor q < 0 := by exact_mod_cast this
      omega
    split_ifs with h1 h2 h3
    · omega
    · by_contra hn
      have h0 : Int.floor q = -1 := by omega
      rw [h0] at h2
      push_cast at h2
      linarith
    · omega
    · by_contra hn
      have h0 : Int.floor q = -1 := by omega
      rw [h0] at h1 h2
      push_cast at h1 h2
      linarith

theorem ulp_pos (x : ℚ) : 0 < ulp x := by
  unfold ulp
  positivity

theorem exponent_abs_log (x : ℚ) :
    exponent x = Int.log 2 |x| ∨ (exponent x = -1022 ∧ Int.log 2 |x| ≤ -1022) := by
  unfold exponent
  rcases le_total (Int.log 2 |x|) (-1022) with h | h
  · right
    exact ⟨max_eq_right h, h⟩
  · left
    exact max_eq_left h

theorem half_ulp_lt_iff (x : ℚ) (hx : 0 < x) : ulp x / 2 < x ↔ (2 : ℚ) ^ (-1075 : ℤ) < x := by
  have habs : |x| = x := abs_of_pos hx
  have hlog : ((2 : ℕ) : ℚ) ^ Int.log 2 x ≤ x := Int.zpow_log_le_self (by norm_num) hx
  rw [Nat.cast_ofNat] at hlog
  rcases exponent_abs_log x with h | ⟨h, -⟩
  · rw [habs] at h
    have hcases : Int.log 2 x ≤ -1022 ∨ -1022 < Int.log 2 x := le_or_lt _ _
    rcases hcases with hc | hc
    · have he : exponent x = -1022 := by
        unfold exponent
        rw [habs]
        exact max_eq_right hc
      unfold ulp
      rw [he]
      norm_num
    · have h1 : ulp x / 2 < x := by
        unfold ulp
        rw [h]
        have : (2 : ℚ) ^ (Int.log 2 x - 52) ≤ 2 ^ Int.log 2 x :=
          zpow_le_zpow_right₀ (by norm_num) (by omega)
        have hp : (0 : ℚ) < 2 ^ (Int.log 2 x - 52) := by positivity
        linarith
      have h2 : (2 : ℚ) ^ (-1075 : ℤ) < x := by
        have : (2 : ℚ) ^ (-1075 : ℤ) < 2 ^ Int.log 2 x :=
          zpow_lt_zpow_right₀ (by norm_num) (by omega)
        linarith
      exact ⟨fun _ => h2, fun _ => h1⟩
  · unfold ulp
    rw [h]
    norm_num

theorem roundDouble_pos_iff (x : ℚ) : 0 < roundDouble x ↔ (2 : ℚ) ^ (-1075 : ℤ) < x := by
  have hu := ulp_pos x
  have h1 : 0 < roundDouble x ↔ 1 / 2 < x / ulp x := by
    unfold roundDouble
    rw [← roundHalfEven_pos_iff]
    constructor
    · intro h
      have : (0 : ℚ) < (roundHalfEven (x / ulp x) : ℚ) := by
        by_contra hn
        push_neg at hn
        have := mul_nonpos_of_nonpos_of_nonneg hn hu.le
        linarith
      exact_mod_cast this
    · intro h
      have : (0 : ℚ) < (roundHalfEven (x / ulp x) : ℚ) := by exact_mod_cast h
      positivity
  rw [h1, lt_div_iff₀ hu]
  rcases le_or_lt x 0 with hx | hx
  · have hp : (0 : ℚ) < 2 ^ (-1075 : ℤ) := by positivity
    constructor
    · intro h; linarith
    · intro h; linarith
  · rw [← half_ulp_lt_iff x hx]
    constructor <;> intro h <;> linarith

theorem exponent_neg (x : ℚ) : exponent (-x) = exponent x := by
  unfold exponent
  rw [abs_neg]

theorem ulp_neg (x : ℚ) : ulp (-x) = ulp x := by
  unfold ulp
  rw [exponent_neg]

theorem roundDouble_neg_iff (x : ℚ) : roundDouble x < 0 ↔ x < -(2 : ℚ) ^ (-1075 : ℤ) := by
  have hu := ulp_pos x
  have h1 : roundDouble x < 0 ↔ x / ulp x < -(1 / 2) := by
    unfold roundDouble
    rw [← roundHalfEven_neg_iff]
    constructor
    · intro h
      have : (roundHalfEven (x / ulp x) : ℚ) < 0 := by
        by_contra hn
        push_neg at hn
        have := mul_nonneg hn hu.le
        linarith
      exact_mod_cast this
    · intro h
      have : (roundHalfEven (x / ulp x) : ℚ) < 0 := by exact_mod_cast h
      exact mul_neg_of_neg_of_pos this hu
  rw [h1, div_lt_iff₀ hu]
  rcases le_or_lt 0 x with hx | hx
  · have hp : (0 : ℚ) < 2 ^ (-1075 : ℤ) := by positivity
    constructor
    · intro h; linarith
    · intro h; linarith
  · have hn : 0 < -x := by linarith
    have := half_ulp_lt_iff (-x) hn
    rw [ulp_neg] at this
    constructor
    · intro h
      have : (2 : ℚ) ^ (-1075 : ℤ) < -x := this.1 (by linarith)
      linarith
    · intro h
      have : ulp x / 2 < -x := this.2 (by linarith)
      linarith

theorem roundDouble_zero : roundDouble 0 = 0 := by
  simp [roundDouble, roundHalfEven]

theorem roundDouble_of_isDouble (x : ℚ) (h : isDouble x) : roundDouble x = x := by
  obtain ⟨m, e, hm, he, -, rfl⟩ := h
  by_cases hm0 : m = 0
  · subst hm0
    simp [roundDouble_zero]
  have hpos : (0 : ℚ) < |(m : ℚ) * 2 ^ e| := by
    apply abs_pos.2
    have : (m : ℚ) ≠ 0 := by exact_mod_cast hm0
    positivity
  have hlt : |(m : ℚ) * 2 ^ e| < 2 ^ (53 + e) := by
    rw [abs_mul, abs_of_pos (by positivity : (0 : ℚ) < 2 ^ e), zpow_add₀ (by norm_num)]
    apply mul_lt_mul_of_pos_right _ (by positivity)
    have h53 : ((|m| : ℤ) : ℚ) < ((2 ^ 53 : ℤ) : ℚ) := Int.cast_lt.2 hm
    rw [Int.cast_abs, Int.cast_pow, Int.cast_ofNat] at h53
    have hz : (2 : ℚ) ^ (53 : ℤ) = 2 ^ (53 : ℕ) := zpow_natCast 2 53
    rw [hz]
    exact h53
  have hlog : Int.log 2 |(m : ℚ) * 2 ^ e| < 53 + e := by
    rw [← Int.lt_zpow_iff_log_lt (by norm_num) hpos]
    rw [Nat.cast_ofNat]
    exact hlt
  have hexp : exponent ((m : ℚ) * 2 ^ e) - 52 ≤ e := by
    unfold exponent
    rcases max_cases (Int.log 2 |(m : ℚ) * 2 ^ e|) (-1022) with ⟨h, -⟩ | ⟨h, -⟩ <;> rw [h] <;> omega
  obtain ⟨k, hk⟩ := Int.eq_ofNat_of_zero_le (by omega : 0 ≤ e - (exponent ((m : ℚ) * 2 ^ e) - 52))
  have he2 : e = (exponent ((m : ℚ) * 2 ^ e) - 52) + (k : ℤ) := by omega
  have hquot : (m : ℚ) * 2 ^ e / ulp ((m : ℚ) * 2 ^ e) = ((m * 2 ^ k : ℤ) : ℚ) := by
    unfold ulp
    have hne : (2 : ℚ) ^ (exponent ((m : ℚ) * 2 ^ e) - 52) ≠ 0 := by positivity
    rw [div_eq_iff hne]
    conv_lhs => rw [he2]
    rw [zpow_add₀ (by norm_num), zpow_natCast]
    push_cast
    ring
  unfold roundDouble
  rw [hquot, roundHalfEven_intCast, ← hquot]
  exact div_mul_cancel₀ _ (ulp_pos _).ne'

/-- Finite doubles are integer multiples of the smallest subnormal `2^-1074`. -/
theorem isDouble_grid (x : ℚ) (h : isDouble x) : ∃ k : ℤ, x = (k : ℚ) * 2 ^ (-1074 : ℤ) := by
  obtain ⟨m, e, -, he, -, rfl⟩ := h
  obtain ⟨j, hj⟩ := Int.eq_ofNat_of_zero_le (by omega : 0 ≤ e + 1074)
  refine ⟨m * 2 ^ j, ?_⟩
  have he2 : e = (j : ℤ) + (-1074) := by omega
  rw [he2, zpow_add₀ (by norm_num), zpow_natCast]
  push_cast
  ring

theorem grid_pos (k : ℤ) (h : 0 < (k : ℚ) * 2 ^ (-1074 : ℤ)) :
    (2 : ℚ) ^ (-1075 : ℤ) < (k : ℚ) * 2 ^ (-1074 : ℤ) := by
  have hp : (0 : ℚ) < 2 ^ (-1074 : ℤ) := by positivity
  have hk : (0 : ℚ) < k := by
    by_contra hn
    push_neg at hn
    have := mul_nonpos_of_nonpos_of_nonneg hn hp.le
    linarith
  have hk1 : (1 : ℚ) ≤ k := by
    have : 0 < k := by exact_mod_cast hk
    have : 1 ≤ k := by omega
    exact_mod_cast this
  have h2 : (2 : ℚ) ^ (-1075 : ℤ) < 2 ^ (-1074 : ℤ) := zpow_lt_zpow_right₀ (by norm_num) (by norm_num)
  nlinarith

/-- The rounded difference of two doubles has the sign of the exact difference. -/
theorem roundDouble_sub_pos (a b : ℚ) (ha : isDouble a) (hb : isDouble b) (h : 0 < a - b) :
    0 < roundDouble (a - b) := by
  obtain ⟨k1, h1⟩ := isDouble_grid a ha
  obtain ⟨k2, h2⟩ := isDouble_grid b hb
  rw [roundDouble_pos_iff]
  have e : a - b = ((k1 - k2 : ℤ) : ℚ) * 2 ^ (-1074 : ℤ) := by
    rw [h1, h2]; push_cast; ring
  rw [e] at h ⊢
  exact grid_pos _ h

theorem roundDouble_add_pos (a b : ℚ) (ha : isDouble a) (hb : isDouble b) (h : 0 < a + b) :
    0 < roundDouble (a + b) := by
  obtain ⟨k1, h1⟩ := isDouble_grid a ha
  obtain ⟨k2, h2⟩ := isDouble_grid b hb
  rw [roundDouble_pos_iff]
  have e : a + b = ((k1 + k2 : ℤ) : ℚ) * 2 ^ (-1074 : ℤ) := by
    rw [h1, h2]; push_cast; ring
  rw [e] at h ⊢
  exact grid_pos _ h

theorem roundDouble_sub_neg (a b : ℚ) (ha : isDouble a) (hb : isDouble b) (h : a - b < 0) :
    roundDouble (a - b) < 0 := by
  obtain ⟨k1, h1⟩ := isDouble_grid a ha
  obtain ⟨k2, h2⟩ := isDouble_grid b hb
  rw [roundDouble_neg_iff]
  have e : a - b = -(((k2 - k1 : ℤ) : ℚ) * 2 ^ (-1074 : ℤ)) := by
    rw [h1, h2]; push_cast; ring
  rw [e] at h ⊢
  have := grid_pos (k2 - k1) (by linarith)
  linarith

theorem roundDouble_add_neg (a b : ℚ) (ha : isDouble a) (hb : isDouble b) (h : a + b < 0) :
    roundDouble (a + b) < 0 := by
  obtain ⟨k1, h1⟩ := isDouble_grid a ha
  obtain ⟨k2, h2⟩ := isDouble_grid b hb
  rw [roundDouble_neg_iff]
  have e : a + b = -(((-k1 - k2 : ℤ) : ℚ) * 2 ^ (-1074 : ℤ)) := by
    rw [h1, h2]; push_cast; ring
  rw [e] at h ⊢
  have := grid_pos (-k1 - k2) (by linarith)
  linarith

end Binary64

/-! ## Theorems: createSimpleCylinder -/

namespace SimpleCylinder

theorem isEndcap_iff_abs (d : Dimensions) : isEndcap d = true ↔ |d.dz| < |d.z_offset| := by
  unfold isEndcap zmin zmax
  rw [decide_eq_true_iff, ← sq_lt_sq]
  constructor <;> intro h <;> nlinarith

theorem isEndcap_false_iff_abs (d : Dimensions) :
    isEndcap d = false ↔ |d.z_offset| ≤ |d.dz| := by
  rw [← not_lt, ← isEndcap_iff_abs]
  simp

theorem createSimpleCylinder_endcap (inp : Input) (h : isEndcap inp.cylinderDim = true) :
    createSimpleCylinder inp =
      { assemblyName := "Endcaps_assembly"
        envelopes := (List.range 2).map (endcapEnvelope inp (nLayers inp.layers))
        systemId := inp.detID
        caloData :=
          { extent0 := inp.cylinderDim.rmin
            extent1 := inp.cylinderDim.rmax
            extent2 := zmin inp.cylinderDim
            extent3 := zmax inp.cylinderDim
            layoutType := LayoutType.EndcapLayout
            layers := endcapCaloLayers inp (nLayers inp.layers) } } := by
  unfold createSimpleCylinder
  simp [h]

theorem createSimpleCylinder_barrel (inp : Input) (h : isEndcap inp.cylinderDim = false) :
    createSimpleCylinder inp =
      { assemblyName := "Barrel_assembly"
        envelopes := [barrelEnvelope inp (nLayers inp.layers)]
        systemId := inp.detID
        caloData :=
          { extent0 := inp.cylinderDim.rmin
            extent1 := inp.cylinderDim.rmax
            extent2 := 0
            extent3 := inp.cylinderDim.dz
            layoutType := LayoutType.BarrelLayout
            layers := barrelCaloLayers inp (nLayers inp.layers) } } := by
  unfold createSimpleCylinder
  simp [h]

/-- In exact arithmetic `createSimpleCylinder` builds the endcap layout (two envelope
placements) exactly when the z range `[z_offset - dz, z_offset + dz]` lies strictly on
one side of `z = 0`,
that is iff `(z_offset - dz) * (z_offset + dz) > 0`, that is iff `|z_offset| > |dz|`;
otherwise it builds the barrel layout with a single envelope placement. -/
theorem createSimpleCylinder_layout (inp : Input) :
    (isEndcap inp.cylinderDim = true ↔
        (inp.cylinderDim.z_offset - inp.cylinderDim.dz) *
          (inp.cylinderDim.z_offset + inp.cylinderDim.dz) > 0) ∧
      (isEndcap inp.cylinderDim = true ↔
        (0 < inp.cylinderDim.z_offset - inp.cylinderDim.dz ∧
            0 < inp.cylinderDim.z_offset + inp.cylinderDim.dz) ∨
          (inp.cylinderDim.z_offset - inp.cylinderDim.dz < 0 ∧
            inp.cylinderDim.z_offset + inp.cylinderDim.dz < 0)) ∧
      (isEndcap inp.cylinderDim = true ↔ |inp.cylinderDim.z_offset| > |inp.cylinderDim.dz|) ∧
      ((createSimpleCylinder inp).caloData.layoutType = LayoutType.EndcapLayout ∧
          (createSimpleCylinder inp).envelopes.length = 2 ↔
        |inp.cylinderDim.z_offset| > |inp.cylinderDim.dz|) ∧
      ((createSimpleCylinder inp).caloData.layoutType = LayoutType.BarrelLayout ∧
          (createSimpleCylinder inp).envelopes.length = 1 ↔
        |inp.cylinderDim.z_offset| ≤ |inp.cylinderDim.dz|) := by
  refine ⟨?_, ?_, ?_, ?_, ?_⟩
  · unfold isEndcap zmin zmax
    rw [decide_eq_true_iff]
  · unfold isEndcap zmin zmax
    rw [decide_eq_true_iff]
    exact mul_pos_iff
  · exact isEndcap_iff_abs inp.cylinderDim
  · rw [gt_iff_lt, ← isEndcap_iff_abs]
    cases h : isEndcap inp.cylinderDim
    · rw [createSimpleCylinder_barrel inp h]
      simp
    · rw [createSimpleCylinder_endcap inp h]
      simp
  · rw [← isEndcap_false_iff_abs]
    cases h : isEndcap inp.cylinderDim
    · rw [createSimpleCylinder_barrel inp h]
      simp
    · rw [createSimpleCylinder_endcap inp h]
      simp

theorem endcapEnvelope_layers_length (inp : Input) (m k : Nat) :
    (endcapEnvelope inp (m : Int) k).layers.length = m := by
  simp [endcapEnvelope]

theorem endcapEnvelope_layers_getElem (inp : Input) (m k i : Nat) (hi : i < m) :
    (endcapEnvelope inp (m : Int) k).layers[i]? = some (endcapLayer inp (m : Int) k i) := by
  simp [endcapEnvelope, List.getElem?_map, List.getElem?_range hi]

/-- The layers of one endcap tile the envelope `[-dz, dz]`, stated for a layer count
given as a natural number. -/
theorem endcapEnvelope_tiles (inp : Input) (m k : Nat) (hm : 1 ≤ m) :
    (∀ i : Nat, i < m → ∃ l, (endcapEnvelope inp (m : Int) k).layers[i]? = some l ∧
        2 * l.shape.dz = 2 * inp.cylinderDim.dz / (m : ℚ) ∧
        l.zPosition =
          -inp.cylinderDim.dz + ((i : ℚ) + 1 / 2) * (2 * inp.cylinderDim.dz / (m : ℚ))) ∧
      (∃ l, (endcapEnvelope inp (m : Int) k).layers[0]? = some l ∧
        l.zPosition - l.shape.dz = -inp.cylinderDim.dz) ∧
      (∀ i : Nat, i + 1 < m → ∃ l l',
        (endcapEnvelope inp (m : Int) k).layers[i]? = some l ∧
        (endcapEnvelope inp (m : Int) k).layers[i + 1]? = some l' ∧
        l.zPosition + l.shape.dz = l'.zPosition - l'.shape.dz) ∧
      (∃ l, (endcapEnvelope inp (m : Int) k).layers[m - 1]? = some l ∧
        l.zPosition + l.shape.dz = inp.cylinderDim.dz) := by
  have hm0 : (m : ℚ) ≠ 0 := by
    have : (0 : ℚ) < m := by exact_mod_cast hm
    exact ne_of_gt this
  refine ⟨?_, ?_, ?_, ?_⟩
  · intro i hi
    refine ⟨_, endcapEnvelope_layers_getElem inp m k i hi, ?_, ?_⟩
    · simp only [endcapLayer, dzLayer, Int.cast_natCast]
      ring
    · simp only [endcapLayer, zMiddle, dzLayer, Int.cast_natCast]
      ring
  · refine ⟨_, endcapEnvelope_layers_getElem inp m k 0 (by omega), ?_⟩
    simp only [endcapLayer, zMiddle, dzLayer, Int.cast_natCast]
    push_cast
    ring
  · intro i hi
    refine ⟨_, _, endcapEnvelope_layers_getElem inp m k i (by omega),
      endcapEnvelope_layers_getElem inp m k (i + 1) hi, ?_⟩
    simp only [endcapLayer, zMiddle, dzLayer, Int.cast_natCast]
    push_cast
    ring
  · refine ⟨_, endcapEnvelope_layers_getElem inp m k (m - 1) (by omega), ?_⟩
    simp only [endcapLayer, zMiddle, dzLayer, Int.cast_natCast]
    have hc : ((m - 1 : Nat) : ℚ) = (m : ℚ) - 1 := by
      rw [Nat.cast_sub hm]
      simp
    rw [hc]
    field_simp
    ring

/-- The XML layers enter `createSimpleCylinder` only through their total repeat count:
the per-layer thicknesses are not used. -/
theorem createSimpleCylinder_layers_irrelevant (inp : Input) (layers2 : List XmlLayer)
    (h : nLayers layers2 = nLayers inp.layers) :
    createSimpleCylinder { inp with layers := layers2 } = createSimpleCylinder inp := by
  have hloop : ∀ (dr : ℚ) (todo iLayer : Nat) (rIn : ℚ),
      barrelLayerLoop { inp with layers := layers2 } dr todo iLayer rIn =
        barrelLayerLoop inp dr todo iLayer rIn := by
    intro dr todo
    induction todo with
    | zero => intro iLayer rIn; rfl
    | succ k ih =>
      intro iLayer rIn
      simp only [barrelLayerLoop, ih]
  have h1 : ∀ n, endcapEnvelope { inp with layers := layers2 } n = endcapEnvelope inp n :=
    fun _ => rfl
  have h2 : ∀ n, barrelEnvelope { inp with layers := layers2 } n = barrelEnvelope inp n := by
    intro n
    simp only [barrelEnvelope, hloop]
  have h3 : ∀ n, endcapCaloLayers { inp with layers := layers2 } n = endcapCaloLayers inp n :=
    fun _ => rfl
  have h4 : ∀ n, barrelCaloLayers { inp with layers := layers2 } n = barrelCaloLayers inp n :=
    fun _ => rfl
  unfold createSimpleCylinder
  simp only [h, h1, h2, h3, h4]

/-- C8: in the endcap layout with `nLayers >= 1`, each of the two endcaps holds `nLayers`
layer volumes, all of thickness `2 * dz / nLayers` whatever thicknesses the XML gives
(the placements are the same for every XML layer list with the same total repeat count);
layer `i` is centred at `-dz + (i + 1/2) * 2 * dz / nLayers`, the lower face of layer 0
is at `-dz`, the upper face of layer `i` is the lower face of layer `i + 1`, and the
upper face of layer `nLayers - 1` is at `+dz` (exact arithmetic). -/
theorem endcap_layers_tile (inp : Input) (hE : isEndcap inp.cylinderDim = true)
    (hn : 1 ≤ nLayers inp.layers) :
    (createSimpleCylinder inp).envelopes.length = 2 ∧
      (∀ layers2 : List XmlLayer, nLayers layers2 = nLayers inp.layers →
        (createSimpleCylinder { inp with layers := layers2 }).envelopes =
          (createSimpleCylinder inp).envelopes) ∧
      ∀ e ∈ (createSimpleCylinder inp).envelopes,
        ((e.layers.length : Int) = nLayers inp.layers) ∧
        (∀ i : Nat, (i : Int) < nLayers inp.layers → ∃ l, e.layers[i]? = some l ∧
          2 * l.shape.dz = 2 * inp.cylinderDim.dz / (nLayers inp.layers : ℚ) ∧
          l.zPosition = -inp.cylinderDim.dz +
            ((i : ℚ) + 1 / 2) * (2 * inp.cylinderDim.dz / (nLayers inp.layers : ℚ))) ∧
        (∃ l, e.layers[0]? = some l ∧ l.zPosition - l.shape.dz = -inp.cylinderDim.dz) ∧
        (∀ i : Nat, ((i : Int) + 1 < nLayers inp.layers) → ∃ l l',
          e.layers[i]? = some l ∧ e.layers[i + 1]? = some l' ∧
          l.zPosition + l.shape.dz = l'.zPosition - l'.shape.dz) ∧
        (∃ l, e.layers[(nLayers inp.layers - 1).toNat]? = some l ∧
          l.zPosition + l.shape.dz = inp.cylinderDim.dz) := by
  refine ⟨?_, ?_, ?_⟩
  · rw [createSimpleCylinder_endcap inp hE]
    simp
  · intro layers2 h2
    rw [createSimpleCylinder_layers_irrelevant inp layers2 h2]
  rw [createSimpleCylinder_endcap inp hE]
  obtain ⟨m, hm⟩ := Int.eq_ofNat_of_zero_le (by omega : 0 ≤ nLayers inp.layers)
  rw [hm] at hn ⊢
  have hm1 : 1 ≤ m := by exact_mod_cast hn
  intro e he
  simp only [List.mem_map, List.mem_range] at he
  obtain ⟨k, -, rfl⟩ := he
  obtain ⟨t1, t2, t3, t4⟩ := endcapEnvelope_tiles inp m k hm1
  refine ⟨?_, ?_, t2, ?_, ?_⟩
  · rw [endcapEnvelope_layers_length]
  · intro i hi
    have := t1 i (by exact_mod_cast hi)
    simpa using this
  · intro i hi
    exact t3 i (by exact_mod_cast hi)
  · have : ((m : Int) - 1).toNat = m - 1 := by omega
    rw [this]
    exact t4

theorem endcap_layers_tile_witness :
    isEndcap exampleEndcap.cylinderDim = true ∧ 1 ≤ nLayers exampleEndcap.layers ∧
      (createSimpleCylinder exampleEndcap).envelopes.length = 2 ∧
      (∀ layers2 : List XmlLayer, nLayers layers2 = nLayers exampleEndcap.layers →
        (createSimpleCylinder { exampleEndcap with layers := layers2 }).envelopes =
          (createSimpleCylinder exampleEndcap).envelopes) ∧
      ∀ e ∈ (createSimpleCylinder exampleEndcap).envelopes,
        ((e.layers.length : Int) = nLayers exampleEndcap.layers) ∧
        (∀ i : Nat, (i : Int) < nLayers exampleEndcap.layers → ∃ l, e.layers[i]? = some l ∧
          2 * l.shape.dz =
            2 * exampleEndcap.cylinderDim.dz / (nLayers exampleEndcap.layers : ℚ) ∧
          l.zPosition = -exampleEndcap.cylinderDim.dz +
            ((i : ℚ) + 1 / 2) *
              (2 * exampleEndcap.cylinderDim.dz / (nLayers exampleEndcap.layers : ℚ))) ∧
        (∃ l, e.layers[0]? = some l ∧
          l.zPosition - l.shape.dz = -exampleEndcap.cylinderDim.dz) ∧
        (∀ i : Nat, ((i : Int) + 1 < nLayers exampleEndcap.layers) → ∃ l l',
          e.layers[i]? = some l ∧ e.layers[i + 1]? = some l' ∧
          l.zPosition + l.shape.dz = l'.zPosition - l'.shape.dz) ∧
        (∃ l, e.layers[(nLayers exampleEndcap.layers - 1).toNat]? = some l ∧
          l.zPosition + l.shape.dz = exampleEndcap.cylinderDim.dz) :=
  ⟨by norm_num [isEndcap, zmin, zmax, exampleEndcap], by decide,
    endcap_layers_tile exampleEndcap (by norm_num [isEndcap, zmin, zmax, exampleEndcap])
      (by decide)⟩

theorem barrelLayerLoop_length (inp : Input) (dr : ℚ) :
    ∀ (todo iLayer : Nat) (rIn : ℚ), (barrelLayerLoop inp dr todo iLayer rIn).length = todo := by
  intro todo
  induction todo with
  | zero => intro iLayer rIn; rfl
  | succ k ih =>
    intro iLayer rIn
    simp [barrelLayerLoop, ih]

/-- The layer produced by iteration `i` of the barrel loop that starts at inner radius
`rIn`: the accumulated inner radius is `rIn + i * dr`. -/
theorem barrelLayerLoop_getElem (inp : Input) (dr : ℚ) :
    ∀ (todo iLayer : Nat) (rIn : ℚ) (i : Nat), i < todo →
      ∃ l, (barrelLayerLoop inp dr todo iLayer rIn)[i]? = some l ∧
        l.shape.rmin = rIn + (i : ℚ) * dr ∧ l.shape.rmax = rIn + ((i : ℚ) + 1) * dr ∧
        l.layerId = ((iLayer + i : Nat) : Int) := by
  intro todo
  induction todo with
  | zero => intro iLayer rIn i hi; omega
  | succ k ih =>
    intro iLayer rIn i hi
    cases i with
    | zero =>
      refine ⟨_, List.getElem?_cons_zero, ?_, ?_, ?_⟩
      · simp
      · simp
      · simp
    | succ j =>
      obtain ⟨l, hl, h1, h2, h3⟩ := ih (iLayer + 1) (rIn + dr) j (by omega)
      refine ⟨l, by simpa [barrelLayerLoop] using hl, ?_, ?_, ?_⟩
      · rw [h1]; push_cast; ring
      · rw [h2]; push_cast; ring
      · rw [h3]; push_cast; ring

theorem barrelCaloLayers_getElem (inp : Input) (m i : Nat) (hi : i < m) :
    (barrelCaloLayers inp (m : Int))[i]? =
      some (caloLayer inp (inp.cylinderDim.rmin + (i : ℚ) * drLayer inp.cylinderDim (m : Int))
        (drLayer inp.cylinderDim (m : Int))) := by
  unfold barrelCaloLayers
  rw [Int.toNat_ofNat, List.getElem?_map, List.getElem?_range hi]
  rfl

/-- C9: in the barrel layout with `nLayers >= 1` there is one envelope with `nLayers`
layers; layer `i` has the radial range `[rmin + i * dr, rmin + (i + 1) * dr]` with
`dr = (rmax - rmin) / nLayers`, its accumulated inner radius is the distance that the
calorimeter-data loop records in closed form for index `i`, consecutive layers share a
boundary, and the outer radius of the last layer is `rmax` (exact arithmetic). -/
theorem barrel_layers_radial (inp : Input) (hB : isEndcap inp.cylinderDim = false)
    (hn : 1 ≤ nLayers inp.layers) :
    ∃ e, (createSimpleCylinder inp).envelopes = [e] ∧
      ((e.layers.length : Int) = nLayers inp.layers) ∧
      (∀ i : Nat, (i : Int) < nLayers inp.layers → ∃ l c,
        e.layers[i]? = some l ∧ (createSimpleCylinder inp).caloData.layers[i]? = some c ∧
        l.shape.rmin = inp.cylinderDim.rmin +
          (i : ℚ) * ((inp.cylinderDim.rmax - inp.cylinderDim.rmin) / (nLayers inp.layers : ℚ)) ∧
        l.shape.rmax = inp.cylinderDim.rmin +
          ((i : ℚ) + 1) *
            ((inp.cylinderDim.rmax - inp.cylinderDim.rmin) / (nLayers inp.layers : ℚ)) ∧
        c.distance = l.shape.rmin) ∧
      (∀ i : Nat, ((i : Int) + 1 < nLayers inp.layers) → ∃ l l',
        e.layers[i]? = some l ∧ e.layers[i + 1]? = some l' ∧ l.shape.rmax = l'.shape.rmin) ∧
      (∃ l, e.layers[(nLayers inp.layers - 1).toNat]? = some l ∧
        l.shape.rmax = inp.cylinderDim.rmax) := by
  rw [createSimpleCylinder_barrel inp hB]
  obtain ⟨m, hm⟩ := Int.eq_ofNat_of_zero_le (by omega : 0 ≤ nLayers inp.layers)
  rw [hm] at hn ⊢
  have hm1 : 1 ≤ m := by exact_mod_cast hn
  have hm0 : (m : ℚ) ≠ 0 := by
    have : (0 : ℚ) < m := by exact_mod_cast hm1
    exact ne_of_gt this
  refine ⟨_, rfl, ?_, ?_, ?_, ?_⟩
  · simp [barrelEnvelope, barrelLayerLoop_length]
  · intro i hi
    have hi' : i < m := by exact_mod_cast hi
    obtain ⟨l, hl, h1, h2, -⟩ :=
      barrelLayerLoop_getElem inp (drLayer inp.cylinderDim (m : Int)) m 0
        inp.cylinderDim.rmin i hi'
    refine ⟨l, _, by simpa [barrelEnvelope] using hl, barrelCaloLayers_getElem inp m i hi',
      ?_, ?_, ?_⟩
    · rw [h1]; simp [drLayer]
    · rw [h2]; simp [drLayer]
    · rw [h1]; simp [caloLayer]
  · intro i hi
    have hi' : i + 1 < m := by exact_mod_cast hi
    obtain ⟨l, hl, -, h2, -⟩ :=
      barrelLayerLoop_getElem inp (drLayer inp.cylinderDim (m : Int)) m 0
        inp.cylinderDim.rmin i (by omega)
    obtain ⟨l', hl', h1', -, -⟩ :=
      barrelLayerLoop_getElem inp (drLayer inp.cylinderDim (m : Int)) m 0
        inp.cylinderDim.rmin (i + 1) hi'
    refine ⟨l, l', by simpa [barrelEnvelope] using hl, by simpa [barrelEnvelope] using hl', ?_⟩
    rw [h2, h1']
    push_cast
    ring
  · have hidx : ((m : Int) - 1).toNat = m - 1 := by omega
    rw [hidx]
    obtain ⟨l, hl, -, h2, -⟩ :=
      barrelLayerLoop_getElem inp (drLayer inp.cylinderDim (m : Int)) m 0
        inp.cylinderDim.rmin (m - 1) (by omega)
    refine ⟨l, by simpa [barrelEnvelope] using hl, ?_⟩
    rw [h2]
    have hc : ((m - 1 : Nat) : ℚ) = (m : ℚ) - 1 := by
      rw [Nat.cast_sub hm1]
      simp
    rw [hc]
    simp only [drLayer, Int.cast_natCast]
    field_simp

theorem barrel_layers_radial_witness :
    isEndcap exampleBarrel.cylinderDim = false ∧ 1 ≤ nLayers exampleBarrel.layers ∧
      ∃ e, (createSimpleCylinder exampleBarrel).envelopes = [e] ∧
        ((e.layers.length : Int) = nLayers exampleBarrel.layers) ∧
        (∀ i : Nat, (i : Int) < nLayers exampleBarrel.layers → ∃ l c,
          e.layers[i]? = some l ∧
          (createSimpleCylinder exampleBarrel).caloData.layers[i]? = some c ∧
          l.shape.rmin = exampleBarrel.cylinderDim.rmin +
            (i : ℚ) * ((exampleBarrel.cylinderDim.rmax - exampleBarrel.cylinderDim.rmin) /
              (nLayers exampleBarrel.layers : ℚ)) ∧
          l.shape.rmax = exampleBarrel.cylinderDim.rmin +
            ((i : ℚ) + 1) *
              ((exampleBarrel.cylinderDim.rmax - exampleBarrel.cylinderDim.rmin) /
                (nLayers exampleBarrel.layers : ℚ)) ∧
          c.distance = l.shape.rmin) ∧
        (∀ i : Nat, ((i : Int) + 1 < nLayers exampleBarrel.layers) → ∃ l l',
          e.layers[i]? = some l ∧ e.layers[i + 1]? = some l' ∧
          l.shape.rmax = l'.shape.rmin) ∧
        (∃ l, e.layers[(nLayers exampleBarrel.layers - 1).toNat]? = some l ∧
          l.shape.rmax = exampleBarrel.cylinderDim.rmax) :=
  ⟨by norm_num [isEndcap, zmin, zmax, exampleBarrel], by decide,
    barrel_layers_radial exampleBarrel (by norm_num [isEndcap, zmin, zmax, exampleBarrel])
      (by decide)⟩

theorem endcapEnvelope_layerIds (inp : Input) (n : Int) (k : Nat) :
    (endcapEnvelope inp n k).layers.map LayerPlacement.layerId =
      (List.range n.toNat).map Int.ofNat := by
  simp only [endcapEnvelope, List.map_map]
  rfl

/-- C12: in the endcap layout `createSimpleCylinder` places exactly two envelopes in the
one assembly `Endcaps_assembly`: subsystem 1 at `z = +z_offset` with rotation 0 and
subsystem 0 at `z = -z_offset` rotated by 180 degrees about z, so the two z positions are
negatives of each other; each endcap holds `nLayers` layers with layer ids
`0 .. nLayers - 1`, and the layers of the two endcaps have the same shape, position,
sensitivity and id. -/
theorem endcap_pair (inp : Input) (hE : isEndcap inp.cylinderDim = true) :
    (createSimpleCylinder inp).assemblyName = "Endcaps_assembly" ∧
      ∃ e0 e1, (createSimpleCylinder inp).envelopes = [e0, e1] ∧
        e1.subsystem = 1 ∧ e1.zoffset = inp.cylinderDim.z_offset ∧ e1.rot = 0 ∧
        e0.subsystem = 0 ∧ e0.zoffset = -inp.cylinderDim.z_offset ∧ e0.rot = 180 ∧
        e0.zoffset = -e1.zoffset ∧ e0.shape = e1.shape ∧
        e0.layers.length = (nLayers inp.layers).toNat ∧
        e1.layers.length = (nLayers inp.layers).toNat ∧
        e0.layers.map LayerPlacement.layerId =
          (List.range (nLayers inp.layers).toNat).map Int.ofNat ∧
        e1.layers.map LayerPlacement.layerId =
          (List.range (nLayers inp.layers).toNat).map Int.ofNat ∧
        e0.layers.map (fun l => (l.shape, l.zPosition, l.sensitive, l.layerId)) =
          e1.layers.map (fun l => (l.shape, l.zPosition, l.sensitive, l.layerId)) := by
  rw [createSimpleCylinder_endcap inp hE]
  refine ⟨rfl, endcapEnvelope inp (nLayers inp.layers) 0,
    endcapEnvelope inp (nLayers inp.layers) 1, rfl, rfl, rfl, rfl, rfl, rfl, rfl, ?_, rfl, ?_,
    ?_, endcapEnvelope_layerIds inp _ 0, endcapEnvelope_layerIds inp _ 1, ?_⟩
  · simp [endcapEnvelope]
  · simp [endcapEnvelope]
  · simp [endcapEnvelope]
  · simp only [endcapEnvelope, List.map_map]
    rfl

theorem endcap_pair_witness :
    isEndcap exampleEndcap.cylinderDim = true ∧
      (createSimpleCylinder exampleEndcap).assemblyName = "Endcaps_assembly" ∧
      ∃ e0 e1, (createSimpleCylinder exampleEndcap).envelopes = [e0, e1] ∧
        e1.subsystem = 1 ∧ e1.zoffset = exampleEndcap.cylinderDim.z_offset ∧ e1.rot = 0 ∧
        e0.subsystem = 0 ∧ e0.zoffset = -exampleEndcap.cylinderDim.z_offset ∧ e0.rot = 180 ∧
        e0.zoffset = -e1.zoffset ∧ e0.shape = e1.shape ∧
        e0.layers.length = (nLayers exampleEndcap.layers).toNat ∧
        e1.layers.length = (nLayers exampleEndcap.layers).toNat ∧
        e0.layers.map LayerPlacement.layerId =
          (List.range (nLayers exampleEndcap.layers).toNat).map Int.ofNat ∧
        e1.layers.map LayerPlacement.layerId =
          (List.range (nLayers exampleEndcap.layers).toNat).map Int.ofNat ∧
        e0.layers.map (fun l => (l.shape, l.zPosition, l.sensitive, l.layerId)) =
          e1.layers.map (fun l => (l.shape, l.zPosition, l.sensitive, l.layerId)) :=
  ⟨by norm_num [isEndcap, zmin, zmax, exampleEndcap],
    endcap_pair exampleEndcap (by norm_num [isEndcap, zmin, zmax, exampleEndcap])⟩

theorem caloLayer_mem (inp : Input) (c : CaloLayer)
    (hc : c ∈ (createSimpleCylinder inp).caloData.layers) :
    ∃ faceIn dLayer, c = caloLayer inp faceIn dLayer := by
  cases h : isEndcap inp.cylinderDim
  · rw [createSimpleCylinder_barrel inp h] at hc
    simp only [barrelCaloLayers, List.mem_map] at hc
    obtain ⟨i, -, rfl⟩ := hc
    exact ⟨_, _, rfl⟩
  · rw [createSimpleCylinder_endcap inp h] at hc
    simp only [endcapCaloLayers, List.mem_map] at hc
    obtain ⟨i, -, rfl⟩ := hc
    exact ⟨_, _, rfl⟩

/-- C13: for every calorimeter-data layer, in the endcap and in the barrel layout alike,
and for every `cellDimensions(0)` result `[d0, d1, ..]` with at least two entries: if the
segmentation is an `FCCSWGridPhiTheta_k4geo` the stored sizes are swapped, `cellSize0 = d1`
and `cellSize1 = d0`; otherwise they are stored in order, `cellSize0 = d0` and
`cellSize1 = d1`. -/
theorem caloData_cellSizes (inp : Input) (d0 d1 : ℚ) (more : List ℚ)
    (hd : inp.cellDimensions = d0 :: d1 :: more) :
    ∀ c ∈ (createSimpleCylinder inp).caloData.layers,
      (inp.segIsPhiTheta = true → c.cellSize0 = d1 ∧ c.cellSize1 = d0) ∧
      (inp.segIsPhiTheta = false → c.cellSize0 = d0 ∧ c.cellSize1 = d1) := by
  intro c hc
  obtain ⟨faceIn, dLayer, rfl⟩ := caloLayer_mem inp c hc
  constructor
  · intro hs
    simp [caloLayer, cellSizes, hs, hd]
  · intro hs
    simp [caloLayer, cellSizes, hs, hd]

theorem caloData_cellSizes_witness :
    exampleEndcap.cellDimensions = 1 / 10 :: 1 / 20 :: [] ∧
      ∀ c ∈ (createSimpleCylinder exampleEndcap).caloData.layers,
        (exampleEndcap.segIsPhiTheta = true → c.cellSize0 = 1 / 20 ∧ c.cellSize1 = 1 / 10) ∧
        (exampleEndcap.segIsPhiTheta = false → c.cellSize0 = 1 / 10 ∧ c.cellSize1 = 1 / 20) :=
  ⟨rfl, caloData_cellSizes exampleEndcap (1 / 10) (1 / 20) [] rfl⟩

end SimpleCylinder

/-! ## Theorems: buildWheel, the nUnitCells attribute -/

namespace ECalEndcapTurbine

theorem splitOnP_no_sep (p : Char → Bool) (l : List Char) :
    ∀ t ∈ l.splitOnP p, ∀ c ∈ t, p c = false := by
  induction l with
  | nil =>
    intro t ht c hc
    simp [List.splitOnP_nil] at ht
    subst ht
    simp at hc
  | cons a l ih =>
    intro t ht c hc
    rw [List.splitOnP_cons] at ht
    by_cases hp : p a = true
    · rw [if_pos hp] at ht
      rcases List.mem_cons.1 ht with h | h
      · subst h
        simp at hc
      · exact ih t h c hc
    · rw [if_neg hp] at ht
      cases hs : l.splitOnP p with
      | nil => exact absurd hs (List.splitOnP_ne_nil p l)
      | cons hd tl =>
        rw [hs] at ht ih
        simp only [List.modifyHead_cons, List.mem_cons] at ht
        rcases ht with h | h
        · subst h
          rcases List.mem_cons.1 hc with h2 | h2
          · subst h2
            simpa using hp
          · exact ih hd (List.mem_cons_self _ _) c h2
        · exact ih t (List.mem_cons_of_mem _ h) c hc

theorem spaceSeparatedTokens_nil : spaceSeparatedTokens [] = [] := by
  simp [spaceSeparatedTokens, List.splitOn, List.splitOnP_nil]

theorem spaceSeparatedTokens_space (l : List Char) :
    spaceSeparatedTokens (' ' :: l) = spaceSeparatedTokens l := by
  simp [spaceSeparatedTokens, List.splitOn, List.splitOnP_cons]

theorem spaceSeparatedTokens_dropWhile (l : List Char) :
    spaceSeparatedTokens (l.dropWhile (fun c => c == ' ')) = spaceSeparatedTokens l := by
  induction l with
  | nil => rfl
  | cons a l ih =>
    by_cases ha : a = ' '
    · subst ha
      rw [spaceSeparatedTokens_space]
      simpa [List.dropWhile_cons] using ih
    · simp [List.dropWhile_cons, ha]

/-- The tokens of a text that starts with a character other than a space: the first one
is the run up to the next space, the others are the tokens of the text after it. -/
theorem spaceSeparatedTokens_cons (c : Char) (cs : List Char) (hc : c ≠ ' ') :
    spaceSeparatedTokens (c :: cs) =
      (c :: cs).takeWhile (fun d => d != ' ') ::
        spaceSeparatedTokens (((c :: cs).dropWhile (fun d => d != ' ')).drop 1) := by
  have hsplit : (c :: cs) = (c :: cs).takeWhile (fun d => d != ' ') ++
      (c :: cs).dropWhile (fun d => d != ' ') := (List.takeWhile_append_dropWhile _ _).symm
  have hno : ∀ d ∈ (c :: cs).takeWhile (fun d => d != ' '), ¬ ((fun e => e == ' ') d = true) := by
    intro d hd
    have := List.mem_takeWhile_imp hd
    simpa using this
  have hne : (c :: cs).takeWhile (fun d => d != ' ') ≠ [] := by
    simp [List.takeWhile_cons, hc]
  cases hrem : (c :: cs).dropWhile (fun d => d != ' ') with
  | nil =>
    rw [hrem, List.append_nil] at hsplit
    have h1 : (c :: cs).splitOnP (fun e => e == ' ') = [c :: cs] := by
      apply List.splitOnP_eq_single
      intro d hd
      rw [hsplit] at hd
      exact hno d hd
    rw [← hsplit]
    simp only [List.drop_nil, spaceSeparatedTokens_nil]
    simp [spaceSeparatedTokens, List.splitOn, h1]
  | cons r rs =>
    have hr : r = ' ' := by
      have := List.head_dropWhile_not (fun d => d != ' ') (c :: cs)
        (by rw [hrem]; simp)
      simp only [hrem, List.head_cons] at this
      simpa using this
    subst hr
    rw [hrem] at hsplit
    have h1 := List.splitOnP_first (fun e => e == ' ')
      ((c :: cs).takeWhile (fun d => d != ' ')) hno ' ' (by simp) rs
    simp only [List.drop_succ_cons, List.drop_zero]
    conv_lhs => rw [hsplit]
    simp only [spaceSeparatedTokens, List.splitOn]
    rw [h1, List.filter_cons_of_pos]
    simpa using hne

theorem strtok_none (text : List Char)
    (h : text.dropWhile (fun c => c == ' ') = []) :
    strtok text = (none, []) ∧ spaceSeparatedTokens text = [] := by
  constructor
  · simp [strtok, h]
  · rw [← spaceSeparatedTokens_dropWhile, h, spaceSeparatedTokens_nil]

theorem strtok_some (text : List Char) (c : Char) (cs : List Char)
    (h : text.dropWhile (fun c => c == ' ') = c :: cs) :
    strtok text = (some ((c :: cs).takeWhile (fun d => d != ' ')),
        ((c :: cs).dropWhile (fun d => d != ' ')).drop 1) ∧
      spaceSeparatedTokens text = (c :: cs).takeWhile (fun d => d != ' ') ::
        spaceSeparatedTokens (((c :: cs).dropWhile (fun d => d != ' ')).drop 1) := by
  have hc : c ≠ ' ' := by
    have := List.head_dropWhile_not (fun c => c == ' ') text (by rw [h]; simp)
    simp only [h, List.head_cons] at this
    simpa using this
  constructor
  · simp [strtok, h]
  · rw [← spaceSeparatedTokens_dropWhile, h, spaceSeparatedTokens_cons c cs hc]

/-- The token pointer after the first `strtok` call and `k` further calls is the token of
index `k` of the text (`NULL` when there are not that many). -/
theorem strtokLoop_eq_getElem (k : Nat) :
    ∀ text : List Char, (strtokLoop k (strtok text)).1 = (spaceSeparatedTokens text)[k]? := by
  induction k with
  | zero =>
    intro text
    cases h : text.dropWhile (fun c => c == ' ') with
    | nil =>
      obtain ⟨h1, h2⟩ := strtok_none text h
      simp [strtokLoop, h1, h2]
    | cons c cs =>
      obtain ⟨h1, h2⟩ := strtok_some text c cs h
      simp [strtokLoop, h1, h2]
  | succ k ih =>
    intro text
    cases h : text.dropWhile (fun c => c == ' ') with
    | nil =>
      obtain ⟨h1, h2⟩ := strtok_none text h
      have := ih []
      rw [spaceSeparatedTokens_nil] at this
      simp only [strtokLoop, h1, h2]
      simpa using this
    | cons c cs =>
      obtain ⟨h1, h2⟩ := strtok_some text c cs h
      simp only [strtokLoop, h1, h2, List.getElem?_cons_succ]
      exact ih _

theorem spaceSeparatedTokens_mem (text t : List Char) (ht : t ∈ spaceSeparatedTokens text) :
    t ≠ [] ∧ ' ' ∉ t := by
  simp only [spaceSeparatedTokens, List.mem_filter, List.splitOn] at ht
  obtain ⟨hmem, hne⟩ := ht
  constructor
  · intro h
    subst h
    simp at hne
  · intro hsp
    have := splitOnP_no_sep (fun e => e == ' ') text t hmem ' ' hsp
    simp at this

/-- Examples of `std::stoi` on tokens. -/
theorem stoi_examples :
    stoi "16".toList = some 16 ∧ stoi "-7".toList = some (-7) ∧ stoi "+12abc".toList = some 12 ∧
      stoi "x1".toList = none ∧ stoi "99999999999".toList = none := by
  decide

/-- C17: when `sameNUnitCells` is false, the token that `buildWheel` hands to `std::stoi`
for wheel `iWheel` is the token of index `iWheel` (from 0) among the space-separated
tokens of the `nUnitCells` attribute, for every attribute with at least `iWheel + 1`
tokens, and the number of unit cells is the integer `std::stoi` parses from it; the
token is not empty and holds no space (runs of spaces produce no empty token). -/
theorem nUnitCells_token (attr : String) (iWheel : Nat) (tok : List Char)
    (htok : (spaceSeparatedTokens attr.toList)[iWheel]? = some tok) :
    nUnitCellsCStr false attr iWheel = some tok ∧
      nUnitCells false attr iWheel = stoi tok ∧
      tok ≠ [] ∧ ' ' ∉ tok ∧
      ∀ t ∈ spaceSeparatedTokens attr.toList, t ≠ [] ∧ ' ' ∉ t := by
  have h1 : nUnitCellsCStr false attr iWheel = some tok := by
    simp only [nUnitCellsCStr, Bool.not_false, if_true]
    rw [strtokLoop_eq_getElem, htok]
  have hmem : tok ∈ spaceSeparatedTokens attr.toList := List.getElem?_mem htok
  refine ⟨h1, ?_, (spaceSeparatedTokens_mem _ _ hmem).1, (spaceSeparatedTokens_mem _ _ hmem).2,
    fun t ht => spaceSeparatedTokens_mem _ t ht⟩
  simp only [nUnitCells, Bool.not_false, if_true, h1]

theorem nUnitCells_token_witness :
    (spaceSeparatedTokens " 8  16   32 ".toList)[1]? = some ['1', '6'] ∧
      nUnitCellsCStr false " 8  16   32 " 1 = some ['1', '6'] ∧
      nUnitCells false " 8  16   32 " 1 = stoi ['1', '6'] ∧
      ['1', '6'] ≠ [] ∧ ' ' ∉ ['1', '6'] ∧
      ∀ t ∈ spaceSeparatedTokens " 8  16   32 ".toList, t ≠ [] ∧ ' ' ∉ t :=
  ⟨by decide, nUnitCells_token " 8  16   32 " 1 ['1', '6'] (by decide)⟩

/-! ## Theorems: buildWheel, the blade angle check -/

/-- For `ri` other than 0 the check of line 79 is the comparison of real numbers. -/
theorem bladeAngleTooSmall_of_ne_zero (xml : WheelXml ℝ) (ri delZ : ℝ) (hri : ri ≠ 0) :
    bladeAngleTooSmall ⟨Real.tan, Real.arctan, Real.pi⟩
        (BladeAngle ⟨Real.tan, Real.arctan, Real.pi⟩ xml ri delZ) ri delZ = true ↔
      |Real.tan (bladeAngle ⟨Real.tan, Real.arctan, Real.pi⟩ xml ri delZ)| <
        delZ / (2 * ri) := by
  cases hd : xml.decreaseAnglePerWheel
  · simp [bladeAngleTooSmall, BladeAngle, bladeAngle, hd, Fp.ofField, Fp.mul, Fp.div, Fp.tan,
      Fp.abs, Fp.lt, hri]
  · by_cases hD : 2 * xml.grmin * Real.tan xml.angle = 0
    · by_cases hz : delZ = 0
      · simp [bladeAngleTooSmall, BladeAngle, bladeAngle, hd, Fp.ofField, Fp.mul, Fp.div,
          Fp.tan, Fp.abs, Fp.lt, Fp.atan, hri, hD, hz]
      · simp [bladeAngleTooSmall, BladeAngle, bladeAngle, hd, Fp.ofField, Fp.mul, Fp.div,
          Fp.tan, Fp.abs, Fp.lt, Fp.atan, hri, hD, hz]
    · by_cases hz : delZ = 0
      · simp [bladeAngleTooSmall, BladeAngle, bladeAngle, hd, Fp.ofField, Fp.mul, Fp.div,
          Fp.tan, Fp.abs, Fp.lt, Fp.atan, hri, hD, hz]
      · simp [bladeAngleTooSmall, BladeAngle, bladeAngle, hd, Fp.ofField, Fp.mul, Fp.div,
          Fp.tan, Fp.abs, Fp.lt, Fp.atan, hri, hD, hz]

theorem bladeAngleTooSmall_sample :
    bladeAngleTooSmall ⟨Real.tan, Real.arctan, Real.pi⟩
      (BladeAngle ⟨Real.tan, Real.arctan, Real.pi⟩ (sampleXml (Real.pi / 4) true "64 128")
        (1 : ℝ) 1) (1 : ℝ) 1 = false := by
  have hba : bladeAngle ⟨Real.tan, Real.arctan, Real.pi⟩
      (sampleXml (Real.pi / 4) true "64 128") (1 : ℝ) 1 = Real.pi / 4 := rfl
  rw [← Bool.not_eq_true, bladeAngleTooSmall_of_ne_zero _ _ _ one_ne_zero, hba,
    Real.tan_pi_div_four]
  norm_num

/-- C15 (the code at the failing input): with `sameNUnitCells` true and the attribute
`nUnitCells = "64 128"` (positive integers), wheel 0 passes the blade-angle check and
`buildWheel` completes with 0 unit cells: the divisor `2 * nUnitCells` of the gap
computation is 0, no blade is placed in the envelope, no detector element is created and
the element counter stays at its value.  With `sameNUnitCells` false the same attribute
gives 64 unit cells. -/
theorem buildWheel_sameNUnitCells_zero :
    nUnitCells true "64 128" 0 = some 0 ∧ nUnitCells false "64 128" 0 = some 64 ∧
      gapDivisor 0 = 0 ∧
      (buildWheel ⟨Real.tan, Real.arctan, Real.pi⟩ (sampleXml (Real.pi / 4) true "64 128")
        4 0 (1 : ℝ) 2 1 0).outcome = Outcome.completed ∧
      (buildWheel ⟨Real.tan, Real.arctan, Real.pi⟩ (sampleXml (Real.pi / 4) true "64 128")
        4 0 (1 : ℝ) 2 1 0).placements.filter
          (fun pl => decide (pl.mother = ⟨"envelope", 0⟩)) = [] ∧
      (buildWheel ⟨Real.tan, Real.arctan, Real.pi⟩ (sampleXml (Real.pi / 4) true "64 128")
        4 0 (1 : ℝ) 2 1 0).detElements = [] ∧
      (buildWheel ⟨Real.tan, Real.arctan, Real.pi⟩ (sampleXml (Real.pi / 4) true "64 128")
        4 0 (1 : ℝ) 2 1 0).counter = 0 := by
  have hn : nUnitCells (sampleXml (Real.pi / 4) true "64 128" : WheelXml ℝ).sameNUnitCells
      (sampleXml (Real.pi / 4) true "64 128" : WheelXml ℝ).nUnitCells 0 = some 0 := rfl
  have hna : numNonActiveLayers (sampleXml (Real.pi / 4) true "64 128" : WheelXml ℝ) 4 = 1 :=
    rfl
  refine ⟨rfl, by decide, rfl, ?_, ?_, ?_, ?_⟩
  · simp only [buildWheel, bladeAngleTooSmall_sample, Bool.false_eq_true, if_false, hn]
  · simp only [buildWheel, bladeAngleTooSmall_sample, Bool.false_eq_true, if_false, hn, hna]
    decide
  · simp only [buildWheel, bladeAngleTooSmall_sample, Bool.false_eq_true, if_false, hn]
    rfl
  · simp only [buildWheel, bladeAngleTooSmall_sample, Bool.false_eq_true, if_false, hn]
    rfl

/-- When the multiplier is the number of layers per wheel, as in the noble-liquid loop,
the layer identifier is distinct for distinct pairs (below the `int` range). -/
theorem layerId_injective (n iWheel iLayer iWheel2 iLayer2 : Nat) (h1 : iLayer < n)
    (h2 : iLayer2 < n) (hr1 : iWheel * n + iLayer < 2 ^ 31)
    (hr2 : iWheel2 * n + iLayer2 < 2 ^ 31)
    (h : layerId iWheel n iLayer = layerId iWheel2 n iLayer2) :
    iWheel = iWheel2 ∧ iLayer = iLayer2 := by
  have e : iWheel * n + iLayer = iWheel2 * n + iLayer2 := by
    unfold layerId toInt32 at h
    split_ifs at h <;> omega
  have hn : 0 < n := by omega
  have hw : iWheel = iWheel2 := by
    have a1 : (iWheel * n + iLayer) / n = iWheel := by
      rw [Nat.mul_comm, Nat.mul_add_div hn, Nat.div_eq_of_lt h1, Nat.add_zero]
    have a2 : (iWheel2 * n + iLayer2) / n = iWheel2 := by
      rw [Nat.mul_comm, Nat.mul_add_div hn, Nat.div_eq_of_lt h2, Nat.add_zero]
    rw [← a1, ← a2, e]
  subst hw
  exact ⟨rfl, by omega⟩

/-- C16 (the code at the failing input): with 2 calibration layers and no non-active
volume sensitive, `numNonActiveLayers` is 1 and the electrode blade layers of wheel 0 get
the layer identifiers 0, 1 and those of wheel 1 get 1, 2: the pairs (wheel 0, layer 1)
and (wheel 1, layer 0) share the identifier 1.  The noble-liquid layers, whose
multiplier is the number of calibration layers, get 0, 1 and 2, 3. -/
theorem electrodeBlade_layerId_collision :
    numNonActiveLayers (sampleXml (0 : ℚ) false "64 128") 2 = 1 ∧
      (electrodeBladePlacements 0 1 2).map Placement.ids = [[("layer", 0)], [("layer", 1)]] ∧
      (electrodeBladePlacements 1 1 2).map Placement.ids = [[("layer", 1)], [("layer", 2)]] ∧
      layerId 0 1 1 = layerId 1 1 0 ∧
      (LArTotalPlacements 0 2).map Placement.ids = [[("layer", 0)], [("layer", 1)]] ∧
      (LArTotalPlacements 1 2).map Placement.ids = [[("layer", 2)], [("layer", 3)]] := by
  refine ⟨rfl, ?_, ?_, ?_, ?_, ?_⟩ <;> decide

end ECalEndcapTurbine

/-! ## Theorems: createSimpleCylinder in double arithmetic -/

namespace SimpleCylinder

theorem createSimpleCylinder_eq_on (inp : Input) :
    createSimpleCylinder inp = createSimpleCylinderOn (isEndcap inp.cylinderDim) inp :=
  rfl

theorem double_isEndcap_iff (d : Dimensions) :
    Double.isEndcap d = true ↔ (2 : ℚ) ^ (-1075 : ℤ) < Double.zmin d * Double.zmax d := by
  unfold Double.isEndcap
  rw [decide_eq_true_iff, gt_iff_lt, Binary64.roundDouble_pos_iff]

/-- When the product of the two computed bounds is positive, the exact bounds lie
strictly on one side of 0. -/
theorem abs_lt_of_double_product_pos (d : Dimensions)
    (h : 0 < Double.zmin d * Double.zmax d) : |d.dz| < |d.z_offset| := by
  have hp : (0 : ℚ) < 2 ^ (-1075 : ℤ) := by positivity
  rw [← isEndcap_iff_abs]
  unfold isEndcap zmin zmax
  rw [decide_eq_true_iff, gt_iff_lt]
  unfold Double.zmin Double.zmax at h
  rcases mul_pos_iff.1 h with ⟨h1, h2⟩ | ⟨h1, h2⟩
  · rw [Binary64.roundDouble_pos_iff] at h1 h2
    exact mul_pos (by linarith) (by linarith)
  · rw [Binary64.roundDouble_neg_iff] at h1 h2
    exact mul_pos_of_neg_of_neg (by linarith) (by linarith)

theorem double_product_pos_of_abs_lt (d : Dimensions) (hz : Binary64.isDouble d.z_offset)
    (hd : Binary64.isDouble d.dz) (h : |d.dz| < |d.z_offset|) :
    0 < Double.zmin d * Double.zmax d := by
  rw [← isEndcap_iff_abs] at h
  unfold isEndcap zmin zmax at h
  rw [decide_eq_true_iff, gt_iff_lt] at h
  unfold Double.zmin Double.zmax
  rcases mul_pos_iff.1 h with ⟨h1, h2⟩ | ⟨h1, h2⟩
  · exact mul_pos (Binary64.roundDouble_sub_pos _ _ hz hd h1)
      (Binary64.roundDouble_add_pos _ _ hz hd h2)
  · exact mul_pos_of_neg_of_neg (Binary64.roundDouble_sub_neg _ _ hz hd h1)
      (Binary64.roundDouble_add_neg _ _ hz hd h2)

theorem double_layout (inp : Input) :
    ((Double.createSimpleCylinder inp).caloData.layoutType = LayoutType.EndcapLayout ∧
        (Double.createSimpleCylinder inp).envelopes.length = 2 ↔
      Double.isEndcap inp.cylinderDim = true) ∧
      ((Double.createSimpleCylinder inp).caloData.layoutType = LayoutType.BarrelLayout ∧
          (Double.createSimpleCylinder inp).envelopes.length = 1 ↔
        Double.isEndcap inp.cylinderDim = false) := by
  unfold Double.createSimpleCylinder createSimpleCylinderOn
  cases Double.isEndcap inp.cylinderDim <;> simp

theorem isDouble_two_zpow (e : ℤ) (h1 : -1074 ≤ e) (h2 : e ≤ 971) :
    Binary64.isDouble ((2 : ℚ) ^ e) :=
  ⟨1, e, by norm_num, h1, h2, by simp⟩

/-- C7 (counterexample): for the doubles `z_offset = 2^-600` and `dz = 2^-601` the z
range `[2^-601, 3 * 2^-601]` lies strictly on the positive side and `|z_offset| > |dz|`,
but the product of the bounds, `3 * 2^-1202`, underflows to 0 in double arithmetic: the
test of line 63 fails and a single barrel is built. -/
theorem isEndcap_product_underflows :
    Binary64.isDouble exampleUnderflow.cylinderDim.z_offset ∧
      Binary64.isDouble exampleUnderflow.cylinderDim.dz ∧
      |exampleUnderflow.cylinderDim.z_offset| > |exampleUnderflow.cylinderDim.dz| ∧
      0 < exampleUnderflow.cylinderDim.z_offset - exampleUnderflow.cylinderDim.dz ∧
      Double.isEndcap exampleUnderflow.cylinderDim = false ∧
      (Double.createSimpleCylinder exampleUnderflow).caloData.layoutType =
        LayoutType.BarrelLayout ∧
      (Double.createSimpleCylinder exampleUnderflow).envelopes.length = 1 := by
  have hz : Binary64.isDouble ((2 : ℚ) ^ (-600 : ℤ)) :=
    isDouble_two_zpow _ (by norm_num) (by norm_num)
  have hd : Binary64.isDouble ((2 : ℚ) ^ (-601 : ℤ)) :=
    isDouble_two_zpow _ (by norm_num) (by norm_num)
  have hlt : (2 : ℚ) ^ (-601 : ℤ) < 2 ^ (-600 : ℤ) :=
    zpow_lt_zpow_right₀ (by norm_num) (by norm_num)
  have hp1 : (0 : ℚ) < 2 ^ (-601 : ℤ) := by positivity
  have hp0 : (0 : ℚ) < 2 ^ (-600 : ℤ) := by positivity
  have e600 : (2 : ℚ) ^ (-600 : ℤ) = 2 * 2 ^ (-601 : ℤ) := by
    rw [show (-600 : ℤ) = 1 + (-601) by norm_num, zpow_add₀ (by norm_num), zpow_one]
  have hmin : Double.zmin exampleUnderflow.cylinderDim = 2 ^ (-601 : ℤ) := by
    have : exampleUnderflow.cylinderDim.z_offset - exampleUnderflow.cylinderDim.dz =
        (2 : ℚ) ^ (-601 : ℤ) := by
      show (2 : ℚ) ^ (-600 : ℤ) - 2 ^ (-601 : ℤ) = 2 ^ (-601 : ℤ)
      rw [e600]; ring
    unfold Double.zmin
    rw [this, Binary64.roundDouble_of_isDouble _ hd]
  have hmax : Double.zmax exampleUnderflow.cylinderDim = 3 * 2 ^ (-601 : ℤ) := by
    have : exampleUnderflow.cylinderDim.z_offset + exampleUnderflow.cylinderDim.dz =
        ((3 : ℤ) : ℚ) * (2 : ℚ) ^ (-601 : ℤ) := by
      show (2 : ℚ) ^ (-600 : ℤ) + 2 ^ (-601 : ℤ) = ((3 : ℤ) : ℚ) * 2 ^ (-601 : ℤ)
      rw [e600]; push_cast; ring
    unfold Double.zmax
    rw [this, Binary64.roundDouble_of_isDouble _
      ⟨3, -601, by norm_num, by norm_num, by norm_num, rfl⟩]
    push_cast
    ring
  have hfalse : Double.isEndcap exampleUnderflow.cylinderDim = false := by
    rw [← Bool.not_eq_true, double_isEndcap_iff, hmin, hmax, not_lt]
    have e1 : (2 : ℚ) ^ (-601 : ℤ) * (3 * 2 ^ (-601 : ℤ)) = 3 * 2 ^ (-1202 : ℤ) := by
      rw [show (-1202 : ℤ) = -601 + -601 by norm_num, zpow_add₀ (by norm_num)]
      ring
    have e2 : (2 : ℚ) ^ (-1075 : ℤ) = 2 ^ (127 : ℤ) * 2 ^ (-1202 : ℤ) := by
      rw [← zpow_add₀ (by norm_num)]
      norm_num
    rw [e1, e2]
    have hp : (0 : ℚ) < 2 ^ (-1202 : ℤ) := by positivity
    have h127 : (3 : ℚ) ≤ 2 ^ (127 : ℤ) := by norm_num
    exact mul_le_mul_of_nonneg_right h127 hp.le
  refine ⟨hz, hd, ?_, ?_, hfalse, ?_, ?_⟩
  · show |(2 : ℚ) ^ (-600 : ℤ)| > |(2 : ℚ) ^ (-601 : ℤ)|
    rw [abs_of_pos hp0, abs_of_pos hp1]
    exact hlt
  · show (0 : ℚ) < 2 ^ (-600 : ℤ) - 2 ^ (-601 : ℤ)
    linarith
  · exact ((double_layout exampleUnderflow).2.2 hfalse).1
  · exact ((double_layout exampleUnderflow).2.2 hfalse).2

/-- C7 (amended): `createSimpleCylinder` builds the endcap pair (two envelope placements)
exactly when the test of line 63 holds in double arithmetic, that is when the product of
the two computed bounds `zmin = z_offset - dz` and `zmax = z_offset + dz` is above `2^-1075`,
half the smallest positive double; otherwise it builds a single barrel.  Whenever the
test holds, `|z_offset| > |dz|` (the z range lies strictly on one side of 0), so a
cylinder whose z range contains or touches 0 is built as a single barrel.  Conversely,
for doubles `z_offset`, `dz` with `|z_offset| > |dz|` the product of the computed bounds
is positive, so the endcap pair is built unless that product underflows.  In exact
arithmetic `isEndcap` holds iff `(z_offset - dz) * (z_offset + dz) > 0` iff
`|z_offset| > |dz|`. -/
theorem endcap_test_double (inp : Input) :
    (Double.isEndcap inp.cylinderDim = true ↔
        (2 : ℚ) ^ (-1075 : ℤ) <
          Double.zmin inp.cylinderDim * Double.zmax inp.cylinderDim) ∧
      ((Double.createSimpleCylinder inp).caloData.layoutType = LayoutType.EndcapLayout ∧
          (Double.createSimpleCylinder inp).envelopes.length = 2 ↔
        Double.isEndcap inp.cylinderDim = true) ∧
      ((Double.createSimpleCylinder inp).caloData.layoutType = LayoutType.BarrelLayout ∧
          (Double.createSimpleCylinder inp).envelopes.length = 1 ↔
        Double.isEndcap inp.cylinderDim = false) ∧
      (Double.isEndcap inp.cylinderDim = true →
        |inp.cylinderDim.z_offset| > |inp.cylinderDim.dz|) ∧
      (|inp.cylinderDim.z_offset| ≤ |inp.cylinderDim.dz| →
        (Double.createSimpleCylinder inp).caloData.layoutType = LayoutType.BarrelLayout ∧
          (Double.createSimpleCylinder inp).envelopes.length = 1) ∧
      (Binary64.isDouble inp.cylinderDim.z_offset → Binary64.isDouble inp.cylinderDim.dz →
        |inp.cylinderDim.z_offset| > |inp.cylinderDim.dz| →
        0 < Double.zmin inp.cylinderDim * Double.zmax inp.cylinderDim) ∧
      (isEndcap inp.cylinderDim = true ↔
        (inp.cylinderDim.z_offset - inp.cylinderDim.dz) *
          (inp.cylinderDim.z_offset + inp.cylinderDim.dz) > 0) ∧
      (isEndcap inp.cylinderDim = true ↔
        |inp.cylinderDim.z_offset| > |inp.cylinderDim.dz|) := by
  have hp : (0 : ℚ) < 2 ^ (-1075 : ℤ) := by positivity
  have h4 : Double.isEndcap inp.cylinderDim = true →
      |inp.cylinderDim.z_offset| > |inp.cylinderDim.dz| := by
    intro h
    rw [double_isEndcap_iff] at h
    exact abs_lt_of_double_product_pos _ (lt_trans hp h)
  refine ⟨double_isEndcap_iff _, (double_layout inp).1, (double_layout inp).2, h4, ?_,
    fun hz hd h => double_product_pos_of_abs_lt _ hz hd h, ?_, isEndcap_iff_abs _⟩
  · intro hle
    apply (double_layout inp).2.2
    rw [← Bool.not_eq_true]
    intro h
    exact absurd (h4 h) (not_lt.2 hle)
  · unfold isEndcap zmin zmax
    rw [decide_eq_true_iff]


theorem endcap_test_double_witness :
    Double.isEndcap exampleEndcap.cylinderDim = true ∧
      (Double.createSimpleCylinder exampleEndcap).caloData.layoutType =
        LayoutType.EndcapLayout ∧
      (Double.createSimpleCylinder exampleEndcap).envelopes.length = 2 := by
  have hmin : Double.zmin exampleEndcap.cylinderDim = 8 := by
    have hx : exampleEndcap.cylinderDim.z_offset - exampleEndcap.cylinderDim.dz =
        ((8 : ℤ) : ℚ) * 2 ^ (0 : ℤ) := by
      norm_num [exampleEndcap]
    unfold Double.zmin
    rw [hx, Binary64.roundDouble_of_isDouble _
      ⟨8, 0, by norm_num, by norm_num, by norm_num, rfl⟩]
    norm_num
  have hmax : Double.zmax exampleEndcap.cylinderDim = 12 := by
    have hx : exampleEndcap.cylinderDim.z_offset + exampleEndcap.cylinderDim.dz =
        ((12 : ℤ) : ℚ) * 2 ^ (0 : ℤ) := by
      norm_num [exampleEndcap]
    unfold Double.zmax
    rw [hx, Binary64.roundDouble_of_isDouble _
      ⟨12, 0, by norm_num, by norm_num, by norm_num, rfl⟩]
    norm_num
  have hlt : (2 : ℚ) ^ (-1075 : ℤ) <
      Double.zmin exampleEndcap.cylinderDim * Double.zmax exampleEndcap.cylinderDim := by
    have hp : (2 : ℚ) ^ (-1075 : ℤ) < 2 ^ (0 : ℤ) :=
      zpow_lt_zpow_right₀ (by norm_num) (by norm_num)
    rw [hmin, hmax]
    refine lt_trans hp ?_
    norm_num
  have he : Double.isEndcap exampleEndcap.cylinderDim = true :=
    (endcap_test_double exampleEndcap).1.2 hlt
  exact ⟨he, (endcap_test_double exampleEndcap).2.1.2 he⟩

/-! ### Barrel with radii 0.1 and 0.2, three layers -/

end SimpleCylinder

end K4geo
